import Mathlib

/-!
Verification of the G-Assist LaunchPad plugin protocol core.

This file gives a shallow embedding, in Lean 4, of the protocol core of the
plugin: the JSON value model used on both wire directions, the
length-prefixed framed channel (`protocol.py`), the host-side dispatch
engine (`plugin.py`), the name sanitizer, capability parsing, the HTTP
transport session logic, and the MCP client lifecycle (`mcp.py`).
Python machine-level details (bytes, big-endian packing, UTF-8) are modelled
explicitly over `Nat`; dynamic Python values flowing through the JSON-RPC
layer are modelled by the inductive `Json` type, with `Json.null` playing
the role of Python's `None`.
-/

namespace GAssist

/-! ## JSON value model

Python values passed through `json.dumps` / `json.loads` in the plugin are
JSON values; dicts preserve insertion order, so an object is modelled as an
ordered association list.  Numbers appearing in this protocol (ids,
timestamps) are integers. -/

inductive Json where
  | null : Json
  | bool (b : Bool) : Json
  | num (n : Int) : Json
  | str (s : List Char) : Json
  | arr (elems : List Json) : Json
  | obj (fields : List (List Char × Json)) : Json
deriving Repr

/-- Key membership in an ordered association list (Python `key in dict`). -/
def hasKey (kvs : List (List Char × Json)) (k : List Char) : Bool :=
  kvs.any (fun kv => kv.1 == k)

/-- Lookup in an ordered association list (Python `dict.get(key)`,
returning the first binding; a Python dict never has duplicate keys). -/
def getKey (kvs : List (List Char × Json)) (k : List Char) : Option Json :=
  match kvs.find? (fun kv => kv.1 == k) with
  | some kv => some kv.2
  | none => none

/-! ## MCP capabilities (`MCPCapabilities.from_dict`, mcp.py) -/

structure MCPCapabilities where
  tools : Bool := false
  resources : Bool := false
  prompts : Bool := false
  sampling : Bool := false
  roots : Bool := false
deriving Repr, DecidableEq

namespace MCPCapabilities

/-- `MCPCapabilities.from_dict` (mcp.py): each flag is set by a Python
`"key" in data` membership test on the capabilities dict. -/
def from_dict (data : List (List Char × Json)) : MCPCapabilities :=
  { tools := hasKey data "tools".data
    resources := hasKey data "resources".data
    prompts := hasKey data "prompts".data
    sampling := hasKey data "sampling".data
    roots := hasKey data "roots".data }

end MCPCapabilities

/-! ## Name sanitizer (`sanitize_name`, mcp.py)

`sanitize_name` is
`re.sub(r'[^a-zA-Z0-9]+', '_', name.lower()).strip('_')` followed by
`re.sub(r'_+', '_', ...)`.  Python's `str.lower()` is modelled by
`Char.toLower` (ASCII case mapping; the special Unicode lowercasings are
not modelled — every non-ASCII character is replaced by an underscore by
the first substitution in any case). -/

/-- The regex character class `[a-zA-Z0-9]`. -/
def isAsciiAlnum (c : Char) : Bool :=
  (65 ≤ c.toNat && c.toNat ≤ 90) || (97 ≤ c.toNat && c.toNat ≤ 122) ||
    (48 ≤ c.toNat && c.toNat ≤ 57)

/-- `re.sub(r'[^a-zA-Z0-9]+', '_', s)`: replace every maximal run of
non-alphanumeric characters by a single underscore. -/
def subNonAlnumRuns : List Char → List Char
  | [] => []
  | c :: rest =>
    if isAsciiAlnum c then c :: subNonAlnumRuns rest
    else '_' :: subNonAlnumRuns (rest.dropWhile (fun d => !isAsciiAlnum d))
termination_by l => l.length
decreasing_by
  · simp only [List.length_cons]; omega
  · have h := (List.dropWhile_sublist (l := rest)
      (fun d => !isAsciiAlnum d)).length_le
    simp only [List.length_cons]; omega

/-- Python `str.strip('_')`. -/
def stripUnderscores (l : List Char) : List Char :=
  (l.dropWhile (· == '_')).rdropWhile (· == '_')

/-- `re.sub(r'_+', '_', s)`: collapse runs of underscores. -/
def collapseUnderscores : List Char → List Char
  | [] => []
  | c :: rest =>
    if c == '_' then '_' :: collapseUnderscores (rest.dropWhile (· == '_'))
    else c :: collapseUnderscores rest
termination_by l => l.length
decreasing_by
  · have h := (List.dropWhile_sublist (l := rest) (· == '_')).length_le
    simp only [List.length_cons]; omega
  · simp only [List.length_cons]; omega

/-- `sanitize_name` (mcp.py): lowercase, replace non-alphanumeric runs by
one underscore, strip leading/trailing underscores, collapse repeats. -/
def sanitize_name (s : List Char) : List Char :=
  collapseUnderscores (stripUnderscores (subNonAlnumRuns (s.map Char.toLower)))


theorem toNat_char_ofNat (n : Nat) (h : n < 55296) : (Char.ofNat n).toNat = n := by
  rw [Char.ofNat, dif_pos (Or.inl h)]
  rfl

theorem toLower_alnum_range (c : Char) (h : isAsciiAlnum (Char.toLower c) = true) :
    (97 ≤ (Char.toLower c).toNat ∧ (Char.toLower c).toNat ≤ 122) ∨
      (48 ≤ (Char.toLower c).toNat ∧ (Char.toLower c).toNat ≤ 57) := by
  unfold Char.toLower at *
  by_cases hc : c.toNat ≥ 65 ∧ c.toNat ≤ 90
  · rw [if_pos hc] at h ⊢
    rw [toNat_char_ofNat _ (by omega)]
    left; omega
  · rw [if_neg hc] at h ⊢
    unfold isAsciiAlnum at h
    simp only [Bool.or_eq_true, Bool.and_eq_true, decide_eq_true_eq] at h
    omega

theorem mem_subNonAlnumRuns (l : List Char) :
    ∀ c ∈ subNonAlnumRuns l, c = '_' ∨ (isAsciiAlnum c ∧ c ∈ l) := by
  induction l using subNonAlnumRuns.induct with
  | case1 => simp [subNonAlnumRuns]
  | case2 c rest h ih =>
    intro d hd
    rw [subNonAlnumRuns, if_pos h] at hd
    rcases List.mem_cons.mp hd with rfl | hd'
    · exact Or.inr ⟨h, List.mem_cons_self _ _⟩
    · rcases ih d hd' with h1 | ⟨h2, h3⟩
      · exact Or.inl h1
      · exact Or.inr ⟨h2, List.mem_cons_of_mem _ h3⟩
  | case3 c rest h ih =>
    intro d hd
    rw [subNonAlnumRuns, if_neg h] at hd
    rcases List.mem_cons.mp hd with rfl | hd'
    · exact Or.inl rfl
    · rcases ih d hd' with h1 | ⟨h2, h3⟩
      · exact Or.inl h1
      · exact Or.inr ⟨h2, List.mem_cons_of_mem _ ((List.dropWhile_sublist _).subset h3)⟩

theorem chain'_subNonAlnumRuns (l : List Char) :
    List.Chain' (fun a b => a ≠ '_' ∨ b ≠ '_') (subNonAlnumRuns l) := by
  induction l using subNonAlnumRuns.induct with
  | case1 => simp [subNonAlnumRuns]
  | case2 c rest h ih =>
    rw [subNonAlnumRuns, if_pos h, List.chain'_cons']
    refine ⟨fun y _ => Or.inl ?_, ih⟩
    intro hc; subst hc
    simp [isAsciiAlnum] at h
  | case3 c rest h ih =>
    rw [subNonAlnumRuns, if_neg h, List.chain'_cons']
    refine ⟨fun y hy => Or.inr ?_, ih⟩
    cases hdw : rest.dropWhile (fun d => !isAsciiAlnum d) with
    | nil => rw [hdw] at hy; simp [subNonAlnumRuns] at hy
    | cons a t =>
      have ha : isAsciiAlnum a = true := by
        have hh := List.head?_dropWhile_not (fun d => !isAsciiAlnum d) rest
        rw [hdw] at hh; simpa using hh
      rw [hdw, subNonAlnumRuns, if_pos ha] at hy
      simp only [List.head?_cons, Option.mem_def, Option.some.injEq] at hy
      subst hy
      intro hc; subst hc
      simp [isAsciiAlnum] at ha

theorem chain'_dropWhile {α : Type} {R : α → α → Prop} (p : α → Bool) {l : List α}
    (h : List.Chain' R l) : List.Chain' R (l.dropWhile p) := by
  induction l with
  | nil => simp
  | cons a t ih =>
    by_cases hp : p a
    · rw [List.dropWhile_cons_of_pos hp]; exact ih h.tail
    · rwa [List.dropWhile_cons_of_neg hp]

theorem chain'_rdropWhile (p : Char → Bool) {l : List Char}
    (h : List.Chain' (fun a b : Char => a ≠ '_' ∨ b ≠ '_') l) :
    List.Chain' (fun a b : Char => a ≠ '_' ∨ b ≠ '_') (l.rdropWhile p) := by
  rw [List.rdropWhile]
  have h1 : List.Chain' (flip (fun a b : Char => a ≠ '_' ∨ b ≠ '_')) l.reverse :=
    List.chain'_reverse.mpr h
  exact List.chain'_reverse.mpr (chain'_dropWhile p h1)

theorem collapseUnderscores_of_chain' (l : List Char)
    (hch : List.Chain' (fun a b => a ≠ '_' ∨ b ≠ '_') l) : collapseUnderscores l = l := by
  induction l using collapseUnderscores.induct with
  | case1 => simp [collapseUnderscores]
  | case2 c rest h ih =>
    have hc : c = '_' := by simpa using h
    subst hc
    rw [collapseUnderscores, if_pos (by simp)]
    have hrest : rest.dropWhile (· == '_') = rest := by
      cases rest with
      | nil => rfl
      | cons a t =>
        have hrel := (List.chain'_cons.mp hch).1
        have ha : a ≠ '_' := by
          rcases hrel with h1 | h1
          · exact absurd rfl h1
          · exact h1
        rw [List.dropWhile_cons_of_neg (by simpa using ha)]
    rw [hrest] at ih ⊢
    rw [ih hch.tail]
  | case3 c rest h ih =>
    rw [collapseUnderscores, if_neg h]
    rw [ih hch.tail]

theorem mem_stripUnderscores (l : List Char) :
    ∀ c ∈ stripUnderscores l, c ∈ l := by
  intro c hc
  rw [stripUnderscores] at hc
  have h1 : c ∈ l.dropWhile (· == '_') :=
    (List.rdropWhile_prefix _ _).sublist.subset hc
  exact (List.dropWhile_sublist _).subset h1

theorem stripUnderscores_head (l : List Char) :
    ∀ c ∈ (stripUnderscores l).head?, c ≠ '_' := by
  intro c hc
  rw [stripUnderscores] at hc
  obtain ⟨t, ht⟩ := List.rdropWhile_prefix (· == '_') (l.dropWhile (· == '_'))
  have h2 : (l.dropWhile (· == '_')).head? = some c := by
    rw [← ht]
    cases hr : (l.dropWhile (· == '_')).rdropWhile (· == '_') with
    | nil => rw [hr] at hc; simp at hc
    | cons a s =>
      rw [hr] at hc
      simp only [List.head?_cons, Option.mem_def, Option.some.injEq] at hc
      subst hc
      simp
  have h3 := List.head?_dropWhile_not (· == '_') l
  rw [h2] at h3
  simpa using h3

theorem stripUnderscores_last (l : List Char) :
    ∀ c ∈ (stripUnderscores l).getLast?, c ≠ '_' := by
  intro c hc
  rw [stripUnderscores] at hc
  cases hr : (l.dropWhile (· == '_')).rdropWhile (· == '_') with
  | nil => rw [hr] at hc; simp at hc
  | cons a s =>
    have hne : (l.dropWhile (· == '_')).rdropWhile (· == '_') ≠ [] := by
      rw [hr]; simp
    have hlast := List.rdropWhile_last_not (· == '_') (l.dropWhile (· == '_')) hne
    have hg : ((l.dropWhile (· == '_')).rdropWhile (· == '_')).getLast hne = c := by
      have := List.getLast?_eq_getLast _ hne
      rw [this] at hc
      exact ((Option.some.injEq _ _).mp hc).symm ▸ rfl
    rw [hg] at hlast
    simpa using hlast

/-- C8 helper: `sanitize_name` equals the stripped substitution (the final
collapse is the identity because the first substitution never emits two
adjacent underscores). -/
theorem sanitize_name_eq_strip (s : List Char) :
    sanitize_name s = stripUnderscores (subNonAlnumRuns (s.map Char.toLower)) := by
  rw [sanitize_name]
  exact collapseUnderscores_of_chain' _
    (chain'_rdropWhile _ (chain'_dropWhile _ (chain'_subNonAlnumRuns _)))

/-- C8: `sanitize_name` yields only lowercase ASCII alphanumerics and
underscores, with no leading, trailing, or adjacent duplicate underscores. -/
theorem sanitize_name_valid_identifier (s : List Char) :
    (∀ c ∈ sanitize_name s,
        (97 ≤ c.toNat ∧ c.toNat ≤ 122) ∨ (48 ≤ c.toNat ∧ c.toNat ≤ 57) ∨ c = '_')
    ∧ (∀ c ∈ (sanitize_name s).head?, c ≠ '_')
    ∧ (∀ c ∈ (sanitize_name s).getLast?, c ≠ '_')
    ∧ List.Chain' (fun a b => a ≠ '_' ∨ b ≠ '_') (sanitize_name s) := by
  rw [sanitize_name_eq_strip]
  refine ⟨?_, stripUnderscores_head _, stripUnderscores_last _, ?_⟩
  · intro c hc
    have h1 := mem_stripUnderscores _ c hc
    rcases mem_subNonAlnumRuns _ c h1 with h2 | ⟨h2, h3⟩
    · exact Or.inr (Or.inr h2)
    · obtain ⟨x, _, rfl⟩ := List.mem_map.mp h3
      rcases toLower_alnum_range x h2 with h4 | h4
      · exact Or.inl h4
      · exact Or.inr (Or.inl h4)
  · exact chain'_rdropWhile _ (chain'_dropWhile _ (chain'_subNonAlnumRuns _))


/-! ## JSON serialization (model of `json.dumps(..., ensure_ascii=False)`)

The plugin serializes messages with Python's `json.dumps` using the default
separators `", "` and `": "`.  Protocol values are JSON values without
floats (ids and timestamps are integers).  Control characters (< 0x20) are
escaped by Python with `\uXXXX`; the model only emits the two escapes `\"`
and `\\`, so well-formedness of modelled strings (`wfStr`) excludes control
characters. -/

/-- One character of `json.dumps` string output (no control characters). -/
def escapeChar (c : Char) : List Char :=
  if c = '"' then ['\\', '"'] else if c = '\\' then ['\\', '\\'] else [c]

def escapeString (s : List Char) : List Char :=
  (s.map escapeChar).flatten

/-- Decimal digits of a natural number, most significant first. -/
def natDigits (n : Nat) : List Char :=
  if n < 10 then [Char.ofNat (48 + n)]
  else natDigits (n / 10) ++ [Char.ofNat (48 + n % 10)]
termination_by n
decreasing_by
  omega

/-- Python `repr` of an integer as emitted by `json.dumps`. -/
def dumpInt (i : Int) : List Char :=
  if i < 0 then '-' :: natDigits (-i).toNat else natDigits i.toNat

mutual

/-- `json.dumps(v, ensure_ascii=False)` with the default separators. -/
def dumpJson : Json → List Char
  | .null => 'n' :: 'u' :: 'l' :: 'l' :: []
  | .bool true => 't' :: 'r' :: 'u' :: 'e' :: []
  | .bool false => 'f' :: 'a' :: 'l' :: 's' :: 'e' :: []
  | .num n => dumpInt n
  | .str s => '"' :: (escapeString s ++ ['"'])
  | .arr xs => '[' :: (dumpElems xs ++ [']'])
  | .obj kvs => '{' :: (dumpMembers kvs ++ ['}'])

def dumpElems : List Json → List Char
  | [] => []
  | [x] => dumpJson x
  | x :: y :: xs => dumpJson x ++ ',' :: ' ' :: dumpElems (y :: xs)

def dumpMembers : List (List Char × Json) → List Char
  | [] => []
  | [(k, v)] => '"' :: (escapeString k ++ '"' :: ':' :: ' ' :: dumpJson v)
  | (k, v) :: m :: kvs =>
    ('"' :: (escapeString k ++ '"' :: ':' :: ' ' :: dumpJson v)) ++
      ',' :: ' ' :: dumpMembers (m :: kvs)

end

/-- No control characters: on such strings the model's escaping agrees with
Python's. -/
def wfStr (s : List Char) : Bool :=
  s.all (fun c => 32 ≤ c.toNat)

mutual

/-- Well-formed modelled value: strings have no control characters and
objects have distinct keys (both automatic for values produced by Python's
`json.dumps` of a dict under this protocol). -/
def wfJson : Json → Bool
  | .null => true
  | .bool _ => true
  | .num _ => true
  | .str s => wfStr s
  | .arr xs => wfElems xs
  | .obj kvs => wfMembers kvs

def wfElems : List Json → Bool
  | [] => true
  | x :: xs => wfJson x && wfElems xs

def wfMembers : List (List Char × Json) → Bool
  | [] => true
  | (k, v) :: kvs => wfStr k && wfJson v && wfMembers kvs && !(hasKey kvs k)

end

/-! ## JSON parsing (model of `json.loads`)

A recursive-descent reference model of `json.loads`, restricted to the
value forms `json.dumps` above can produce (no floats, no `\uXXXX`
escapes); it is slightly more lenient than Python on leading zeros of
number literals, which `json.dumps` never emits. -/

def isDigitChar (c : Char) : Bool := 48 ≤ c.toNat && c.toNat ≤ 57

/-- JSON whitespace accepted between tokens by `json.loads`. -/
def isWsChar (c : Char) : Bool := c = ' ' || c = '\t' || c = '\n' || c = '\r'

def skipWs (cs : List Char) : List Char := cs.dropWhile isWsChar

/-- Consume a maximal run of decimal digits, accumulating their value. -/
def parseDigits (acc : Nat) : List Char → Nat × List Char
  | [] => (acc, [])
  | c :: rest =>
    if isDigitChar c then parseDigits (acc * 10 + (c.toNat - 48)) rest
    else (acc, c :: rest)

/-- Body of a JSON string literal after the opening quote, up to the
closing quote, unescaping `\"` and `\\`. -/
def parseStringBody : List Char → Option (List Char × List Char)
  | [] => none
  | c :: rest =>
    if c = '"' then some ([], rest)
    else if c = '\\' then
      match rest with
      | [] => none
      | e :: rest' =>
        if e = '"' || e = '\\' then
          (parseStringBody rest').map (fun p => (e :: p.1, p.2))
        else none
    else (parseStringBody rest).map (fun p => (c :: p.1, p.2))
termination_by l => l.length
decreasing_by
  · simp only [List.length_cons]; omega
  · simp only [List.length_cons]; omega

mutual

/-- Parse one JSON value; `fuel` dominates the nesting depth. -/
def parseValue : Nat → List Char → Option (Json × List Char)
  | 0, _ => none
  | _ + 1, [] => none
  | fuel + 1, c :: rest =>
    if c = 'n' then
      if rest.take 3 = ['u', 'l', 'l'] then some (Json.null, rest.drop 3) else none
    else if c = 't' then
      if rest.take 3 = ['r', 'u', 'e'] then some (Json.bool true, rest.drop 3) else none
    else if c = 'f' then
      if rest.take 4 = ['a', 'l', 's', 'e'] then some (Json.bool false, rest.drop 4)
      else none
    else if c = '"' then
      (parseStringBody rest).map (fun p => (Json.str p.1, p.2))
    else if c = '-' then
      if rest.head?.any isDigitChar then
        some (Json.num (-((parseDigits 0 rest).1 : Int)), (parseDigits 0 rest).2)
      else none
    else if isDigitChar c then
      some (Json.num ((parseDigits (c.toNat - 48) rest).1 : Int),
        (parseDigits (c.toNat - 48) rest).2)
    else if c = '[' then
      if (skipWs rest).head? = some ']' then some (Json.arr [], (skipWs rest).tail)
      else (parseElems fuel (skipWs rest)).map (fun p => (Json.arr p.1, p.2))
    else if c = '{' then
      if (skipWs rest).head? = some '}' then some (Json.obj [], (skipWs rest).tail)
      else (parseMembers fuel (skipWs rest)).map (fun p => (Json.obj p.1, p.2))
    else none

/-- Parse a non-empty comma-separated element list up to `]`. -/
def parseElems : Nat → List Char → Option (List Json × List Char)
  | 0, _ => none
  | fuel + 1, cs =>
    match parseValue fuel cs with
    | none => none
    | some (v, r) =>
      if (skipWs r).head? = some ',' then
        (parseElems fuel (skipWs (skipWs r).tail)).map (fun p => (v :: p.1, p.2))
      else if (skipWs r).head? = some ']' then some ([v], (skipWs r).tail)
      else none

/-- Parse a non-empty comma-separated member list up to the closing brace. -/
def parseMembers : Nat → List Char → Option (List (List Char × Json) × List Char)
  | 0, _ => none
  | fuel + 1, cs =>
    if cs.head? = some '"' then
      match parseStringBody cs.tail with
      | none => none
      | some (k, r1) =>
        if (skipWs r1).head? = some ':' then
          match parseValue fuel (skipWs (skipWs r1).tail) with
          | none => none
          | some (v, r3) =>
            if (skipWs r3).head? = some ',' then
              (parseMembers fuel (skipWs (skipWs r3).tail)).map
                (fun p => ((k, v) :: p.1, p.2))
            else if (skipWs r3).head? = some '}' then some ([(k, v)], (skipWs r3).tail)
            else none
        else none
    else none

end

mutual

/-- Depth measure of a value, dominating the fuel `parseValue` needs. -/
def jsonSize : Json → Nat
  | .null => 1
  | .bool _ => 1
  | .num _ => 1
  | .str _ => 1
  | .arr xs => 1 + elemsSize xs
  | .obj kvs => 1 + membersSize kvs

/-- Fuel needed by `parseElems` for this element list. -/
def elemsSize : List Json → Nat
  | [] => 0
  | x :: xs => 1 + max (jsonSize x) (elemsSize xs)

/-- Fuel needed by `parseMembers` for this member list. -/
def membersSize : List (List Char × Json) → Nat
  | [] => 0
  | (_, v) :: kvs => 1 + max (jsonSize v) (membersSize kvs)

end

/-- Model of Python `json.loads`: one JSON document, optionally surrounded
by whitespace, consuming the whole input. -/
def jsonLoads (s : List Char) : Option Json :=
  match parseValue (s.length + 1) (skipWs s) with
  | some (v, r) => if skipWs r = [] then some v else none
  | none => none


theorem natDigits_struct (n : Nat) :
    ∃ c t, natDigits n = c :: t ∧ (∀ d ∈ natDigits n, isDigitChar d = true) := by
  induction n using natDigits.induct with
  | case1 n h =>
    refine ⟨Char.ofNat (48 + n), [], by rw [natDigits, if_pos h], ?_⟩
    intro d hd
    rw [natDigits, if_pos h] at hd
    simp only [List.mem_singleton] at hd
    subst hd
    simp [isDigitChar, toNat_char_ofNat (48 + n) (by omega)]
    omega
  | case2 n h ih =>
    obtain ⟨c, t, hct, hall⟩ := ih
    refine ⟨c, t ++ [Char.ofNat (48 + n % 10)], ?_, ?_⟩
    · rw [natDigits, if_neg h, hct]; simp
    · intro d hd
      rw [natDigits, if_neg h] at hd
      rcases List.mem_append.mp hd with h1 | h1
      · exact hall d h1
      · simp only [List.mem_singleton] at h1
        subst h1
        simp [isDigitChar, toNat_char_ofNat (48 + n % 10) (by omega)]
        omega

theorem parseDigits_stop (acc : Nat) (rest : List Char)
    (h : ∀ c ∈ rest.head?, isDigitChar c = false) : parseDigits acc rest = (acc, rest) := by
  cases rest with
  | nil => rfl
  | cons c t =>
    have hc : isDigitChar c = false := h c (by simp)
    rw [parseDigits, if_neg (by simp [hc])]

theorem parseDigits_natDigits_append (n : Nat) : ∀ (acc : Nat) (rest : List Char),
    parseDigits acc (natDigits n ++ rest)
      = parseDigits (acc * 10 ^ (natDigits n).length + n) rest := by
  induction n using natDigits.induct with
  | case1 n h =>
    intro acc rest
    rw [natDigits, if_pos h]
    simp only [List.singleton_append, List.length_singleton]
    rw [parseDigits,
      if_pos (by simp [isDigitChar, toNat_char_ofNat (48 + n) (by omega)]; omega)]
    rw [toNat_char_ofNat (48 + n) (by omega)]
    norm_num
  | case2 n h ih =>
    intro acc rest
    rw [natDigits, if_neg h]
    rw [List.append_assoc, ih acc _]
    simp only [List.singleton_append]
    rw [parseDigits,
      if_pos (by simp [isDigitChar, toNat_char_ofNat (48 + n % 10) (by omega)]; omega)]
    rw [toNat_char_ofNat (48 + n % 10) (by omega)]
    simp only [List.length_append, List.length_singleton]
    congr 1
    rw [pow_succ, Nat.add_mul, Nat.add_assoc, ← mul_assoc]
    omega

theorem parseDigits_spec (n : Nat) (rest : List Char)
    (h : ∀ c ∈ rest.head?, isDigitChar c = false) :
    parseDigits 0 (natDigits n ++ rest) = (n, rest) := by
  rw [parseDigits_natDigits_append, parseDigits_stop _ _ h]
  simp

theorem parseStringBody_escape (s : List Char) (rest : List Char) :
    parseStringBody (escapeString s ++ '"' :: rest) = some (s, rest) := by
  induction s with
  | nil =>
    have h0 : escapeString [] = [] := by simp [escapeString]
    rw [h0, List.nil_append, parseStringBody.eq_def]
    simp
  | cons c t ih =>
    have hesc : escapeString (c :: t) = escapeChar c ++ escapeString t := by
      simp [escapeString]
    rw [hesc, List.append_assoc]
    by_cases h1 : c = '"'
    · subst h1
      rw [escapeChar, if_pos rfl]
      simp only [List.cons_append, List.nil_append]
      rw [parseStringBody.eq_def]
      simp only [reduceIte]
      rw [ih]
      rfl
    · by_cases h2 : c = '\\'
      · subst h2
        rw [escapeChar, if_neg (by decide), if_pos rfl]
        simp only [List.cons_append, List.nil_append]
        rw [parseStringBody.eq_def]
        simp only [reduceIte]
        rw [ih]
        rfl
      · rw [escapeChar, if_neg h1, if_neg h2]
        simp only [List.cons_append, List.nil_append]
        rw [parseStringBody.eq_def]
        simp only [if_neg h1, if_neg h2, ih]
        rfl


theorem digit_not_ws (c : Char) (hc : isDigitChar c = true) : isWsChar c = false := by
  by_contra h
  rw [Bool.not_eq_false] at h
  simp only [isWsChar, Bool.or_eq_true, decide_eq_true_eq] at h
  rcases h with ((rfl | rfl) | rfl) | rfl <;> exact absurd hc (by decide)

theorem digit_ne (c d : Char) (hc : isDigitChar c = true)
    (hd : isDigitChar d = false) : c ≠ d := by
  intro h
  subst h
  rw [hc] at hd
  exact Bool.noConfusion hd

theorem dumpJson_head (v : Json) : ∃ c t, dumpJson v = c :: t ∧
    isWsChar c = false ∧ c ≠ ']' ∧ c ≠ '}' := by
  cases v with
  | null => refine ⟨'n', _, rfl, ?_, ?_, ?_⟩ <;> decide
  | bool b =>
    cases b with
    | true => refine ⟨'t', _, rfl, ?_, ?_, ?_⟩ <;> decide
    | false => refine ⟨'f', _, rfl, ?_, ?_, ?_⟩ <;> decide
  | num i =>
    by_cases hi : i < 0
    · refine ⟨'-', natDigits (-i).toNat, ?_, by decide, by decide, by decide⟩
      simp [dumpJson, dumpInt, hi]
    · obtain ⟨c, t, hct, hall⟩ := natDigits_struct i.toNat
      have hc : isDigitChar c = true := hall c (by rw [hct]; simp)
      refine ⟨c, t, ?_, digit_not_ws c hc, digit_ne c ']' hc (by decide),
        digit_ne c '}' hc (by decide)⟩
      simp [dumpJson, dumpInt, hi, hct]
  | str s => refine ⟨'"', _, rfl, ?_, ?_, ?_⟩ <;> decide
  | arr xs => refine ⟨'[', _, rfl, ?_, ?_, ?_⟩ <;> decide
  | obj kvs => refine ⟨'{', _, rfl, ?_, ?_, ?_⟩ <;> decide


theorem jsonSize_pos (v : Json) : 1 ≤ jsonSize v := by
  cases v <;> simp [jsonSize]

theorem skipWs_of_head (cs : List Char) (h : ∀ c ∈ cs.head?, isWsChar c = false) :
    skipWs cs = cs := by
  cases cs with
  | nil => rfl
  | cons c t =>
    exact List.dropWhile_cons_of_neg (by simp [h c (by simp)])

theorem skipWs_space (t : List Char) : skipWs (' ' :: t) = skipWs t :=
  List.dropWhile_cons_of_pos (by decide)

theorem dumpElems_cons_decomp (x : Json) (xs : List Json) :
    ∃ s, dumpElems (x :: xs) = dumpJson x ++ s := by
  cases xs with
  | nil => exact ⟨[], by simp [dumpElems]⟩
  | cons y ys => exact ⟨',' :: ' ' :: dumpElems (y :: ys), by simp [dumpElems]⟩

theorem parseValue_num (f : Nat) (i : Int) (rest : List Char)
    (hrest : ∀ c ∈ rest.head?, isDigitChar c = false) :
    parseValue (f + 1) (dumpInt i ++ rest) = some (Json.num i, rest) := by
  by_cases hi : i < 0
  · obtain ⟨c, t, hct, hall⟩ := natDigits_struct (-i).toNat
    have hc : isDigitChar c = true := hall c (by rw [hct]; simp)
    have h1 : parseDigits 0 (natDigits (-i).toNat ++ rest) = ((-i).toNat, rest) :=
      parseDigits_spec _ rest hrest
    rw [dumpInt, if_pos hi, List.cons_append]
    rw [parseValue.eq_def]
    simp only [reduceIte]
    rw [hct, List.cons_append]
    simp only [List.head?_cons, Option.any_some, hc, if_pos]
    rw [hct, List.cons_append] at h1
    rw [h1]
    rw [if_neg (by decide : ¬ '-' = 'n'), if_neg (by decide : ¬ '-' = 't'),
      if_neg (by decide : ¬ '-' = 'f'), if_neg (by decide : ¬ '-' = '"')]
    dsimp only
    simp only [Option.some.injEq, Prod.mk.injEq, Json.num.injEq]
    exact ⟨by omega, trivial⟩
  · obtain ⟨c, t, hct, hall⟩ := natDigits_struct i.toNat
    have hc : isDigitChar c = true := hall c (by rw [hct]; simp)
    have h1 : parseDigits (c.toNat - 48) (t ++ rest) = (i.toNat, rest) := by
      have h2 := parseDigits_spec i.toNat rest hrest
      rw [hct, List.cons_append, parseDigits, if_pos hc] at h2
      simpa using h2
    rw [dumpInt, if_neg hi, hct, List.cons_append]
    rw [parseValue.eq_def]
    simp only []
    rw [if_neg (digit_ne c 'n' hc (by decide) : ¬ c = 'n'),
      if_neg (digit_ne c 't' hc (by decide) : ¬ c = 't'),
      if_neg (digit_ne c 'f' hc (by decide) : ¬ c = 'f'),
      if_neg (digit_ne c '"' hc (by decide) : ¬ c = '"'),
      if_neg (digit_ne c '-' hc (by decide) : ¬ c = '-'),
      if_pos hc, h1]
    simp only [Option.some.injEq, Prod.mk.injEq, and_true, Json.num.injEq]
    omega


theorem parseValue_quote (f : Nat) (rest : List Char) :
    parseValue (f + 1) ('"' :: rest)
      = (parseStringBody rest).map (fun p => (Json.str p.1, p.2)) := by
  rw [parseValue.eq_def]
  simp only []
  rw [if_neg (by decide : ¬ '"' = 'n'), if_neg (by decide : ¬ '"' = 't'),
    if_neg (by decide : ¬ '"' = 'f')]
  simp

theorem parseValue_lbrack (f : Nat) (rest : List Char) :
    parseValue (f + 1) ('[' :: rest)
      = (if (skipWs rest).head? = some ']' then some (Json.arr [], (skipWs rest).tail)
         else (parseElems f (skipWs rest)).map (fun p => (Json.arr p.1, p.2))) := by
  rw [parseValue.eq_def]
  simp only []
  rw [if_neg (by decide : ¬ '[' = 'n'), if_neg (by decide : ¬ '[' = 't'),
    if_neg (by decide : ¬ '[' = 'f'), if_neg (by decide : ¬ '[' = '"'),
    if_neg (by decide : ¬ '[' = '-'), if_neg (by decide : isDigitChar '[' = true → False)]
  simp

theorem parseValue_lbrace (f : Nat) (rest : List Char) :
    parseValue (f + 1) ('{' :: rest)
      = (if (skipWs rest).head? = some '}' then some (Json.obj [], (skipWs rest).tail)
         else (parseMembers f (skipWs rest)).map (fun p => (Json.obj p.1, p.2))) := by
  rw [parseValue.eq_def]
  simp only []
  rw [if_neg (by decide : ¬ '{' = 'n'), if_neg (by decide : ¬ '{' = 't'),
    if_neg (by decide : ¬ '{' = 'f'), if_neg (by decide : ¬ '{' = '"'),
    if_neg (by decide : ¬ '{' = '-'), if_neg (by decide : isDigitChar '{' = true → False),
    if_neg (by decide : ¬ '{' = '[')]
  simp


theorem dumpMembers_cons_decomp (k : List Char) (v : Json)
    (kvs : List (List Char × Json)) :
    ∃ s, dumpMembers ((k, v) :: kvs) = '"' :: s := by
  cases kvs with
  | nil => exact ⟨escapeString k ++ '"' :: ':' :: ' ' :: dumpJson v, by simp [dumpMembers]⟩
  | cons m ms =>
    exact ⟨(escapeString k ++ '"' :: ':' :: ' ' :: dumpJson v) ++
      ',' :: ' ' :: dumpMembers (m :: ms), by simp [dumpMembers]⟩

/-- Joint round-trip statement for `parseValue` / `parseElems` /
`parseMembers` against the serializer, by strong induction on fuel. -/
theorem parse_dump (fuel : Nat) :
    (∀ (v : Json) (rest : List Char), jsonSize v ≤ fuel →
      (∀ c ∈ rest.head?, isDigitChar c = false) →
      parseValue fuel (dumpJson v ++ rest) = some (v, rest)) ∧
    (∀ (xs : List Json) (rest : List Char), xs ≠ [] → elemsSize xs ≤ fuel →
      parseElems fuel (dumpElems xs ++ ']' :: rest) = some (xs, rest)) ∧
    (∀ (kvs : List (List Char × Json)) (rest : List Char), kvs ≠ [] →
      membersSize kvs ≤ fuel →
      parseMembers fuel (dumpMembers kvs ++ '}' :: rest) = some (kvs, rest)) := by
  induction fuel using Nat.strong_induction_on with
  | _ fuel ih =>
  rcases fuel with _ | f
  · refine ⟨?_, ?_, ?_⟩
    · intro v rest hsz _
      have := jsonSize_pos v
      omega
    · intro xs rest hne hsz
      cases xs with
      | nil => exact absurd rfl hne
      | cons x xs => simp [elemsSize] at hsz
    · intro kvs rest hne hsz
      cases kvs with
      | nil => exact absurd rfl hne
      | cons kv kvs =>
        obtain ⟨k, v⟩ := kv
        simp [membersSize] at hsz
  · obtain ⟨IH1, IH2, IH3⟩ := ih f (Nat.lt_succ_self f)
    refine ⟨?_, ?_, ?_⟩
    · -- parseValue round trip
      intro v rest hsz hrest
      cases v with
      | null => simp [dumpJson, parseValue]
      | bool b => cases b <;> simp [dumpJson, parseValue]
      | num i => exact parseValue_num f i rest hrest
      | str s =>
        have hps := parseStringBody_escape s rest
        have hsh : dumpJson (Json.str s) ++ rest
            = '"' :: (escapeString s ++ '"' :: rest) := by
          simp [dumpJson]
        rw [hsh, parseValue_quote, hps]
        rfl
      | arr xs =>
        cases xs with
        | nil =>
          have h0 : dumpJson (Json.arr []) ++ rest = '[' :: ']' :: rest := by
            simp [dumpJson, dumpElems]
          rw [h0, parseValue_lbrack,
            skipWs_of_head _ (by intro c hc; simp at hc; subst hc; decide)]
          simp
        | cons x xs =>
          have hsz' : elemsSize (x :: xs) ≤ f := by
            simp only [jsonSize] at hsz
            omega
          obtain ⟨s, hs⟩ := dumpElems_cons_decomp x xs
          obtain ⟨c, t, hct, hws, hbr, _⟩ := dumpJson_head x
          have harr : dumpJson (Json.arr (x :: xs)) ++ rest
              = '[' :: (dumpElems (x :: xs) ++ ']' :: rest) := by
            simp [dumpJson]
          have hhead : (dumpElems (x :: xs) ++ ']' :: rest).head? = some c := by
            rw [hs, hct]
            simp
          rw [harr, parseValue_lbrack,
            skipWs_of_head _ (by rw [hhead]; intro d hd; simp at hd; subst hd; exact hws),
            hhead, if_neg (by simp [hbr]), IH2 (x :: xs) rest (by simp) hsz']
          rfl
      | obj kvs =>
        cases kvs with
        | nil =>
          have h0 : dumpJson (Json.obj []) ++ rest = '{' :: '}' :: rest := by
            simp [dumpJson, dumpMembers]
          rw [h0, parseValue_lbrace,
            skipWs_of_head _ (by intro c hc; simp at hc; subst hc; decide)]
          simp
        | cons kv kvs =>
          obtain ⟨k, v⟩ := kv
          have hsz' : membersSize ((k, v) :: kvs) ≤ f := by
            simp only [jsonSize] at hsz
            omega
          obtain ⟨s, hs⟩ := dumpMembers_cons_decomp k v kvs
          have hobj : dumpJson (Json.obj ((k, v) :: kvs)) ++ rest
              = '{' :: (dumpMembers ((k, v) :: kvs) ++ '}' :: rest) := by
            simp [dumpJson]
          have hhead : (dumpMembers ((k, v) :: kvs) ++ '}' :: rest).head? = some '"' := by
            rw [hs]
            simp
          rw [hobj, parseValue_lbrace,
            skipWs_of_head _ (by rw [hhead]; intro d hd; simp at hd; subst hd; decide),
            hhead, if_neg (by simp), IH3 ((k, v) :: kvs) rest (by simp) hsz']
          rfl
    · -- parseElems round trip
      intro xs rest hne hsz
      cases xs with
      | nil => exact absurd rfl hne
      | cons x xs' =>
        have h1 : jsonSize x ≤ f := by
          simp only [elemsSize] at hsz
          omega
        cases xs' with
        | nil =>
          have h0 : dumpElems [x] ++ ']' :: rest = dumpJson x ++ ']' :: rest := by
            simp [dumpElems]
          rw [h0]
          simp only [parseElems]
          rw [IH1 x (']' :: rest) h1 (by intro c hc; simp at hc; subst hc; decide)]
          simp only []
          rw [skipWs_of_head (']' :: rest)
            (by intro c hc; simp at hc; subst hc; decide)]
          simp
        | cons y ys =>
          have h2 : elemsSize (y :: ys) ≤ f := by
            simp only [elemsSize] at hsz ⊢
            omega
          have hde : dumpElems (x :: y :: ys) ++ ']' :: rest
              = dumpJson x ++ (',' :: ' ' :: (dumpElems (y :: ys) ++ ']' :: rest)) := by
            simp [dumpElems]
          rw [hde]
          simp only [parseElems]
          rw [IH1 x _ h1 (by intro c hc; simp at hc; subst hc; decide)]
          simp only []
          rw [skipWs_of_head (',' :: ' ' :: (dumpElems (y :: ys) ++ ']' :: rest))
            (by intro c hc; simp at hc; subst hc; decide)]
          simp only [List.head?_cons, List.tail_cons]
          rw [if_pos trivial, skipWs_space]
          obtain ⟨s2, hs2⟩ := dumpElems_cons_decomp y ys
          obtain ⟨c2, t2, hct2, hws2, _, _⟩ := dumpJson_head y
          rw [skipWs_of_head _
            (by rw [hs2, hct2]; intro d hd; simp at hd; subst hd; exact hws2)]
          rw [IH2 (y :: ys) rest (by simp) h2]
          rfl
    · -- parseMembers round trip
      intro kvs rest hne hsz
      cases kvs with
      | nil => exact absurd rfl hne
      | cons kv kvs' =>
        obtain ⟨k, v⟩ := kv
        have h1 : jsonSize v ≤ f := by
          simp only [membersSize] at hsz
          omega
        obtain ⟨c, t, hct, hws, _, hbrc⟩ := dumpJson_head v
        cases kvs' with
        | nil =>
          have h0 : dumpMembers [(k, v)] ++ '}' :: rest
              = '"' :: (escapeString k ++ '"' :: (':' :: ' ' ::
                  (dumpJson v ++ '}' :: rest))) := by
            simp [dumpMembers]
          rw [h0]
          simp only [parseMembers]
          simp only [List.head?_cons, List.tail_cons]
          rw [if_pos trivial]
          rw [parseStringBody_escape]
          simp only []
          rw [skipWs_of_head (':' :: ' ' :: (dumpJson v ++ '}' :: rest))
            (by intro d hd; simp at hd; subst hd; decide)]
          simp only [List.head?_cons, List.tail_cons]
          rw [if_pos trivial, skipWs_space,
            skipWs_of_head _ (by rw [hct]; intro d hd; simp at hd; subst hd; exact hws),
            IH1 v ('}' :: rest) h1 (by intro d hd; simp at hd; subst hd; decide)]
          simp only []
          rw [skipWs_of_head ('}' :: rest)
            (by intro d hd; simp at hd; subst hd; decide)]
          simp
        | cons m ms =>
          have h2 : membersSize (m :: ms) ≤ f := by
            simp only [membersSize] at hsz ⊢
            omega
          have h0 : dumpMembers ((k, v) :: m :: ms) ++ '}' :: rest
              = '"' :: (escapeString k ++ '"' :: (':' :: ' ' ::
                  (dumpJson v ++ ',' :: ' ' :: (dumpMembers (m :: ms) ++ '}' :: rest)))) := by
            simp [dumpMembers]
          rw [h0]
          simp only [parseMembers]
          simp only [List.head?_cons, List.tail_cons]
          rw [if_pos trivial]
          rw [parseStringBody_escape]
          simp only []
          rw [skipWs_of_head (':' :: ' ' :: _)
            (by intro d hd; simp at hd; subst hd; decide)]
          simp only [List.head?_cons, List.tail_cons]
          rw [if_pos trivial, skipWs_space,
            skipWs_of_head _ (by rw [hct]; intro d hd; simp at hd; subst hd; exact hws),
            IH1 v _ h1 (by intro d hd; simp at hd; subst hd; decide)]
          simp only []
          rw [skipWs_of_head (',' :: ' ' :: (dumpMembers (m :: ms) ++ '}' :: rest))
            (by intro d hd; simp at hd; subst hd; decide)]
          simp only [List.head?_cons, List.tail_cons]
          rw [if_pos trivial, skipWs_space]
          obtain ⟨s2, hs2⟩ := dumpMembers_cons_decomp m.1 m.2 ms
          rw [skipWs_of_head _
            (by rw [show (m.1, m.2) = m from rfl] at hs2; rw [hs2];
                intro d hd; simp at hd; subst hd; decide),
            IH3 (m :: ms) rest (by simp) h2]
          rfl


theorem natDigits_ne_nil (n : Nat) : natDigits n ≠ [] := by
  obtain ⟨c, t, hct, _⟩ := natDigits_struct n
  rw [hct]
  simp

theorem jsonSize_le_dump :
    (∀ v : Json, jsonSize v ≤ (dumpJson v).length) ∧
    (∀ kvs : List (List Char × Json),
      membersSize kvs ≤ (dumpMembers kvs).length + 1) ∧
    (∀ xs : List Json, elemsSize xs ≤ (dumpElems xs).length + 1) := by
  apply jsonSize.mutual_induct
    (fun v => jsonSize v ≤ (dumpJson v).length)
    (fun kvs => membersSize kvs ≤ (dumpMembers kvs).length + 1)
    (fun xs => elemsSize xs ≤ (dumpElems xs).length + 1)
  · simp [jsonSize, dumpJson]
  · intro a
    cases a <;> simp [jsonSize, dumpJson]
  · intro a
    have h1 := natDigits_ne_nil a.toNat
    have h2 := natDigits_ne_nil (-a).toNat
    simp only [jsonSize, dumpJson, dumpInt]
    by_cases ha : a < 0 <;> simp [ha]
    exact Nat.one_le_iff_ne_zero.mpr (by simpa using h1)
  · intro a
    simp [jsonSize, dumpJson]
  · intro a iha
    simp only [jsonSize, dumpJson, List.length_cons, List.length_append,
      List.length_singleton]
    omega
  · intro a iha
    simp only [jsonSize, dumpJson, List.length_cons, List.length_append,
      List.length_singleton]
    omega
  · simp [elemsSize]
  · intro x xs ihx ihxs
    cases xs with
    | nil =>
      simp only [elemsSize, dumpElems, List.length_nil]
      omega
    | cons y ys =>
      simp only [elemsSize, dumpElems, List.length_append, List.length_cons] at ihxs ⊢
      omega
  · simp [membersSize]
  · intro k v kvs ihv ihkvs
    cases kvs with
    | nil =>
      simp only [membersSize, dumpMembers, List.length_cons, List.length_append]
      omega
    | cons m ms =>
      simp only [membersSize, dumpMembers, List.length_cons,
        List.length_append] at ihkvs ⊢
      omega

/-- Round trip through the serializer and the parser: `json.loads` of
`json.dumps` of any modelled value returns that value. -/
theorem jsonLoads_dump (v : Json) : jsonLoads (dumpJson v) = some v := by
  rw [jsonLoads]
  obtain ⟨c, t, hct, hws, _, _⟩ := dumpJson_head v
  rw [skipWs_of_head _ (by rw [hct]; intro d hd; simp at hd; subst hd; exact hws)]
  have h1 : parseValue ((dumpJson v).length + 1) (dumpJson v ++ []) = some (v, []) :=
    (parse_dump _).1 v [] (Nat.le_succ_of_le (jsonSize_le_dump.1 v)) (by simp)
  rw [List.append_nil] at h1
  rw [h1]
  simp [skipWs]


/-! ## UTF-8 and byte framing (`protocol.py`)

Bytes are modelled as `Nat` values below 256.  `str.encode("utf-8")` /
`bytes.decode("utf-8")` are modelled by `utf8Encode` / `utf8Decode`;
`struct.pack(">I", n)` / `struct.unpack(">I", b)` by `packUInt32BE` /
`unpackUInt32BE`. -/

/-- UTF-8 encoding of one Unicode scalar value (RFC 3629). -/
def utf8EncodeChar (c : Char) : List Nat :=
  let n := c.toNat
  if n < 128 then [n]
  else if n < 2048 then [192 + n / 64, 128 + n % 64]
  else if n < 65536 then [224 + n / 4096, 128 + n / 64 % 64, 128 + n % 64]
  else [240 + n / 262144, 128 + n / 4096 % 64, 128 + n / 64 % 64, 128 + n % 64]

def utf8Encode (s : List Char) : List Nat := (s.map utf8EncodeChar).flatten

/-- Decode one UTF-8 scalar from the head of a byte list, rejecting
truncated, overlong, surrogate and out-of-range forms. -/
def utf8DecodeOne : List Nat → Option (Char × List Nat)
  | [] => none
  | b :: rest =>
    if b < 128 then some (Char.ofNat b, rest)
    else if b < 194 then none
    else if b < 224 then
      match rest with
      | b1 :: r =>
        if 128 ≤ b1 ∧ b1 < 192 then some (Char.ofNat ((b - 192) * 64 + (b1 - 128)), r)
        else none
      | [] => none
    else if b < 240 then
      match rest with
      | b1 :: b2 :: r =>
        if (128 ≤ b1 ∧ b1 < 192) ∧ (128 ≤ b2 ∧ b2 < 192) then
          if 55296 ≤ (b - 224) * 4096 + (b1 - 128) * 64 + (b2 - 128) ∧
              (b - 224) * 4096 + (b1 - 128) * 64 + (b2 - 128) < 57344 then none
          else if (b - 224) * 4096 + (b1 - 128) * 64 + (b2 - 128) < 2048 then none
          else some (Char.ofNat ((b - 224) * 4096 + (b1 - 128) * 64 + (b2 - 128)), r)
        else none
      | _ => none
    else if b < 245 then
      match rest with
      | b1 :: b2 :: b3 :: r =>
        if (128 ≤ b1 ∧ b1 < 192) ∧ (128 ≤ b2 ∧ b2 < 192) ∧ (128 ≤ b3 ∧ b3 < 192) then
          if (b - 240) * 262144 + (b1 - 128) * 4096 + (b2 - 128) * 64 + (b3 - 128) < 65536 ∨
              1114112 ≤ (b - 240) * 262144 + (b1 - 128) * 4096 + (b2 - 128) * 64 + (b3 - 128)
            then none
          else some
            (Char.ofNat ((b - 240) * 262144 + (b1 - 128) * 4096 + (b2 - 128) * 64 + (b3 - 128)), r)
        else none
      | _ => none
    else none

def utf8DecodeLoop : Nat → List Nat → Option (List Char)
  | _, [] => some []
  | 0, _ :: _ => none
  | fuel + 1, b :: bs =>
    match utf8DecodeOne (b :: bs) with
    | some (c, rest) => (utf8DecodeLoop fuel rest).map (fun cs => c :: cs)
    | none => none

/-- Model of `bytes.decode("utf-8")`; `none` models `UnicodeDecodeError`. -/
def utf8Decode (bs : List Nat) : Option (List Char) := utf8DecodeLoop bs.length bs

/-- `struct.pack(">I", n)`: 4-byte big-endian length header. -/
def packUInt32BE (n : Nat) : List Nat :=
  [n / 16777216 % 256, n / 65536 % 256, n / 256 % 256, n % 256]

/-- `struct.unpack(">I", [b0, b1, b2, b3])`. -/
def unpackUInt32BE (b0 b1 b2 b3 : Nat) : Nat :=
  ((b0 * 256 + b1) * 256 + b2) * 256 + b3

theorem unpack_packUInt32BE (n : Nat) (h : n < 4294967296) :
    unpackUInt32BE (n / 16777216 % 256) (n / 65536 % 256) (n / 256 % 256) (n % 256)
      = n := by
  rw [unpackUInt32BE]
  omega

/-- The code-point facts guaranteed by `Char` validity, in `Nat` form. -/
theorem char_valid_nat (c : Char) :
    c.toNat < 55296 ∨ (57343 < c.toNat ∧ c.toNat < 1114112) := by
  rcases c.valid with h | ⟨h1, h2⟩
  · exact Or.inl (UInt32.toNat_lt_of_lt (by decide) h)
  · exact Or.inr ⟨UInt32.lt_toNat_of_lt (by decide) h1,
      UInt32.toNat_lt_of_lt (by decide) h2⟩

theorem utf8DecodeOne_encodeChar (c : Char) (rest : List Nat) :
    utf8DecodeOne (utf8EncodeChar c ++ rest) = some (c, rest) := by
  have hv := char_valid_nat c
  have hofn : Char.ofNat c.toNat = c := Char.ofNat_toNat c
  rw [utf8EncodeChar]
  by_cases h1 : c.toNat < 128
  · rw [if_pos h1]
    simp only [List.cons_append, List.nil_append]
    rw [utf8DecodeOne.eq_def]
    simp only []
    rw [if_pos h1, hofn]
  · rw [if_neg h1]
    by_cases h2 : c.toNat < 2048
    · rw [if_pos h2]
      simp only [List.cons_append, List.nil_append]
      rw [utf8DecodeOne.eq_def]
      simp only []
      rw [if_neg (by omega : ¬ 192 + c.toNat / 64 < 128),
        if_neg (by omega : ¬ 192 + c.toNat / 64 < 194),
        if_pos (by omega : 192 + c.toNat / 64 < 224)]
      rw [if_pos (by omega : 128 ≤ 128 + c.toNat % 64 ∧ 128 + c.toNat % 64 < 192)]
      have harith : (192 + c.toNat / 64 - 192) * 64 + (128 + c.toNat % 64 - 128)
          = c.toNat := by omega
      rw [harith, hofn]
    · rw [if_neg h2]
      by_cases h3 : c.toNat < 65536
      · rw [if_pos h3]
        simp only [List.cons_append, List.nil_append]
        rw [utf8DecodeOne.eq_def]
        simp only []
        rw [if_neg (by omega : ¬ 224 + c.toNat / 4096 < 128),
          if_neg (by omega : ¬ 224 + c.toNat / 4096 < 194),
          if_neg (by omega : ¬ 224 + c.toNat / 4096 < 224),
          if_pos (by omega : 224 + c.toNat / 4096 < 240)]
        rw [if_pos (by omega :
          (128 ≤ 128 + c.toNat / 64 % 64 ∧ 128 + c.toNat / 64 % 64 < 192) ∧
            (128 ≤ 128 + c.toNat % 64 ∧ 128 + c.toNat % 64 < 192))]
        have harith : (224 + c.toNat / 4096 - 224) * 4096 +
            (128 + c.toNat / 64 % 64 - 128) * 64 + (128 + c.toNat % 64 - 128)
            = c.toNat := by omega
        rw [harith]
        rw [if_neg (by omega), if_neg (by omega), hofn]
      · rw [if_neg h3]
        simp only [List.cons_append, List.nil_append]
        rw [utf8DecodeOne.eq_def]
        simp only []
        rw [if_neg (by omega : ¬ 240 + c.toNat / 262144 < 128),
          if_neg (by omega : ¬ 240 + c.toNat / 262144 < 194),
          if_neg (by omega : ¬ 240 + c.toNat / 262144 < 224),
          if_neg (by omega : ¬ 240 + c.toNat / 262144 < 240),
          if_pos (by omega : 240 + c.toNat / 262144 < 245)]
        rw [if_pos (by omega :
          (128 ≤ 128 + c.toNat / 4096 % 64 ∧ 128 + c.toNat / 4096 % 64 < 192) ∧
            (128 ≤ 128 + c.toNat / 64 % 64 ∧ 128 + c.toNat / 64 % 64 < 192) ∧
            (128 ≤ 128 + c.toNat % 64 ∧ 128 + c.toNat % 64 < 192))]
        have harith : (240 + c.toNat / 262144 - 240) * 262144 +
            (128 + c.toNat / 4096 % 64 - 128) * 4096 +
            (128 + c.toNat / 64 % 64 - 128) * 64 + (128 + c.toNat % 64 - 128)
            = c.toNat := by omega
        rw [harith]
        rw [if_neg (by omega), hofn]


theorem utf8EncodeChar_length_pos (c : Char) : 1 ≤ (utf8EncodeChar c).length := by
  rw [utf8EncodeChar]
  split
  · simp
  · split
    · simp
    · split <;> simp

theorem utf8DecodeLoop_encode (s : List Char) :
    ∀ fuel, (utf8Encode s).length ≤ fuel → utf8DecodeLoop fuel (utf8Encode s) = some s := by
  induction s with
  | nil => intro fuel _; cases fuel <;> rfl
  | cons c s' ih =>
    intro fuel hf
    have henc : utf8Encode (c :: s') = utf8EncodeChar c ++ utf8Encode s' := by
      simp [utf8Encode]
    have hlen : 1 ≤ (utf8EncodeChar c).length := utf8EncodeChar_length_pos c
    rw [henc] at hf ⊢
    rw [List.length_append] at hf
    obtain ⟨f, rfl⟩ : ∃ f, fuel = f + 1 := ⟨fuel - 1, by omega⟩
    obtain ⟨b, t, hbt⟩ : ∃ b t, utf8EncodeChar c = b :: t := by
      cases hE : utf8EncodeChar c with
      | nil => rw [hE] at hlen; simp at hlen
      | cons b t => exact ⟨b, t, rfl⟩
    rw [hbt, List.cons_append, utf8DecodeLoop]
    rw [← List.cons_append, ← hbt, utf8DecodeOne_encodeChar]
    show (utf8DecodeLoop f (utf8Encode s')).map (fun cs => c :: cs) = some (c :: s')
    rw [ih f (by omega)]
    rfl

/-- UTF-8 round trip: decoding an encoded string recovers it. -/
theorem utf8Decode_encode (s : List Char) : utf8Decode (utf8Encode s) = some s :=
  utf8DecodeLoop_encode s _ (Nat.le_refl _)


/-! ## JSON-RPC message types (`types.py`)

Python's dynamically typed fields are modelled as `Json`; `Json.null`
plays Python's `None`.  For the optional `id`/`params` fields, `none`
models Python `None` (absent); `data.get(...)` cannot distinguish an
absent key from a key bound to `None`, so `from_dict` collapses a stored
null to `none` exactly as the Python code does. -/

structure JsonRpcRequest where
  method : Json
  id : Option Json := none
  params : Option Json := none
  jsonrpc : Json := Json.str "2.0".data
deriving Repr

namespace JsonRpcRequest

/-- `JsonRpcRequest.to_dict` (types.py): insertion order `jsonrpc`,
`method`, then `id` and `params` when present. -/
def to_dict (r : JsonRpcRequest) : List (List Char × Json) :=
  ([("jsonrpc".data, r.jsonrpc), ("method".data, r.method)] ++
    (match r.id with
     | some i => [("id".data, i)]
     | none => [])) ++
    (match r.params with
     | some p => [("params".data, p)]
     | none => [])

/-- Python `data.get(key)` yields `None` both for an absent key and for a
key bound to `None`. -/
def noneIfNull : Option Json → Option Json
  | some Json.null => none
  | o => o

/-- `JsonRpcRequest.from_dict` (types.py). -/
def from_dict (data : List (List Char × Json)) : JsonRpcRequest :=
  { method := (getKey data "method".data).getD (Json.str "".data)
    id := noneIfNull (getKey data "id".data)
    params := noneIfNull (getKey data "params".data)
    jsonrpc := (getKey data "jsonrpc".data).getD (Json.str "2.0".data) }

/-- `JsonRpcRequest.is_notification` (types.py): no id field. -/
def is_notification (r : JsonRpcRequest) : Bool := r.id.isNone

end JsonRpcRequest

structure JsonRpcResponse where
  id : Json
  result : Json := Json.null
  error_data : Option Json := none
  jsonrpc : Json := Json.str "2.0".data
deriving Repr

namespace JsonRpcResponse

/-- `JsonRpcResponse.to_dict` (types.py): exactly one of `error`/`result`
is emitted, keyed on whether `error_data` is set. -/
def to_dict (r : JsonRpcResponse) : List (List Char × Json) :=
  [("jsonrpc".data, r.jsonrpc), ("id".data, r.id)] ++
    (match r.error_data with
     | some e => [("error".data, e)]
     | none => [("result".data, r.result)])

/-- `JsonRpcResponse.success` (types.py). -/
def success (id : Json) (result : Json) : JsonRpcResponse :=
  { id := id, result := result, error_data := none }

/-- `JsonRpcResponse.make_error` (types.py). -/
def make_error (id : Json) (code : Int) (message : List Char) : JsonRpcResponse :=
  { id := id
    error_data := some (Json.obj
      [("code".data, Json.num code), ("message".data, Json.str message)]) }

end JsonRpcResponse

structure JsonRpcNotification where
  method : List Char
  params : Option Json := none
  jsonrpc : Json := Json.str "2.0".data
deriving Repr

namespace JsonRpcNotification

/-- `JsonRpcNotification.to_dict` (types.py). -/
def to_dict (r : JsonRpcNotification) : List (List Char × Json) :=
  [("jsonrpc".data, r.jsonrpc), ("method".data, Json.str r.method)] ++
    (match r.params with
     | some p => [("params".data, p)]
     | none => [])

end JsonRpcNotification

/-- Error codes (`ErrorCode`, types.py). -/
def ErrorCode.METHOD_NOT_FOUND : Int := -32601

def ErrorCode.PLUGIN_ERROR : Int := -1

/-! ## Framed channel (`Protocol`, protocol.py) -/

structure ProtocolState where
  closed : Bool
deriving Repr, DecidableEq

/-- Outcome of `Protocol.read_message`: a parsed request, a raised
`ProtocolError`, or a raised `ConnectionClosed`. -/
inductive ReadResult where
  | ok (req : JsonRpcRequest)
  | protocolError
  | connectionClosed
deriving Repr

def MAX_MESSAGE_SIZE : Nat := 10 * 1024 * 1024

/-- `Protocol._read_bytes(count)` over an explicit stream: `none` when the
stream is exhausted immediately, otherwise the bytes obtained (possibly
fewer than `count` if the stream ends early), plus the remaining stream. -/
def readBytes (count : Nat) (input : List Nat) :
    Option (List Nat) × List Nat :=
  if count = 0 then (some [], input)
  else if input.isEmpty then (none, input)
  else (some (input.take count), input.drop count)

/-- Python `data.get("jsonrpc") == "2.0"`: the stored value equals the
string `"2.0"`. -/
def isJsonrpc20 : Option Json → Bool
  | some (Json.str s) => s == "2.0".data
  | _ => false

/-- `Protocol.read_message` (protocol.py): length-prefix framing with the
checks in source order — closed flag, 4-byte header, maximum size, empty
frame, payload, UTF-8 decode, JSON parse, object check, version check,
`method` presence.  Returns the outcome, the successor state, and the
unconsumed input. -/
def readMessage (st : ProtocolState) (input : List Nat) :
    ReadResult × ProtocolState × List Nat :=
  if st.closed then (.connectionClosed, st, input)
  else
    match readBytes 4 input with
    | (none, rest) => (.connectionClosed, { closed := true }, rest)
    | (some header, rest) =>
      if header.length < 4 then (.connectionClosed, { closed := true }, rest)
      else
        let length := unpackUInt32BE (header.getD 0 0) (header.getD 1 0)
          (header.getD 2 0) (header.getD 3 0)
        if length > MAX_MESSAGE_SIZE then (.protocolError, st, rest)
        else if length = 0 then (.protocolError, st, rest)
        else
          match readBytes length rest with
          | (none, rest2) => (.connectionClosed, { closed := true }, rest2)
          | (some payload, rest2) =>
            if payload.length < length then (.connectionClosed, { closed := true }, rest2)
            else
              match utf8Decode payload with
              | none => (.protocolError, st, rest2)
              | some chars =>
                match jsonLoads chars with
                | none => (.protocolError, st, rest2)
                | some (Json.obj kvs) =>
                  if isJsonrpc20 (getKey kvs "jsonrpc".data) = false then
                    (.protocolError, st, rest2)
                  else if hasKey kvs "method".data = false then
                    (.protocolError, st, rest2)
                  else (.ok (JsonRpcRequest.from_dict kvs), st, rest2)
                | some _ => (.protocolError, st, rest2)

/-- `Protocol.write_message` (protocol.py): returns the success flag and
the bytes written to the stream. -/
def writeMessage (st : ProtocolState) (message : List (List Char × Json)) :
    Bool × List Nat :=
  if st.closed then (false, [])
  else
    let message := if hasKey message "jsonrpc".data then message
      else message ++ [("jsonrpc".data, Json.str "2.0".data)]
    let payload := utf8Encode (dumpJson (Json.obj message))
    if payload.length > MAX_MESSAGE_SIZE then (false, [])
    else (true, packUInt32BE payload.length ++ payload)

/-- `Protocol.close` (protocol.py). -/
def protocolClose (_st : ProtocolState) : ProtocolState := { closed := true }


/-- C3: a frame whose 4-byte header declares a length over the 10 MiB
maximum raises `ProtocolError` with only the header consumed (no payload
bytes are read), and a declared length of zero raises `ProtocolError`
(not `ConnectionClosed`); in both cases the channel is not marked closed. -/
theorem readMessage_framing_errors (st : ProtocolState) (input : List Nat)
    (hopen : st.closed = false) (h4 : 4 ≤ input.length) :
    (MAX_MESSAGE_SIZE < unpackUInt32BE ((input.take 4).getD 0 0)
        ((input.take 4).getD 1 0) ((input.take 4).getD 2 0) ((input.take 4).getD 3 0) →
      readMessage st input = (ReadResult.protocolError, st, input.drop 4)) ∧
    (unpackUInt32BE ((input.take 4).getD 0 0) ((input.take 4).getD 1 0)
        ((input.take 4).getD 2 0) ((input.take 4).getD 3 0) = 0 →
      readMessage st input = (ReadResult.protocolError, st, input.drop 4)) := by
  have hne : input.isEmpty = false := by
    cases input with
    | nil => simp at h4
    | cons b bs => rfl
  have hlen4 : (input.take 4).length = 4 := by
    rw [List.length_take]
    omega
  constructor
  · intro hbig
    rw [readMessage, if_neg (by simp [hopen])]
    rw [readBytes, if_neg (by omega), if_neg (by simp [hne])]
    simp only []
    rw [if_neg (by omega), if_pos (by omega)]
  · intro hzero
    rw [readMessage, if_neg (by simp [hopen])]
    rw [readBytes, if_neg (by omega), if_neg (by simp [hne])]
    simp only []
    rw [if_neg (by omega), if_neg (by rw [hzero]; decide), if_pos hzero]

/-- Witness for C3 at a concrete stream: an oversized declared length
(`0xFF FF FF FF`) and a zero declared length both yield `ProtocolError`
leaving the stream positioned just past the header. -/
theorem readMessage_framing_errors_witness :
    readMessage ⟨false⟩ [255, 255, 255, 255, 7] =
        (ReadResult.protocolError, ⟨false⟩, [7]) ∧
      readMessage ⟨false⟩ [0, 0, 0, 0, 7] = (ReadResult.protocolError, ⟨false⟩, [7]) :=
  ⟨(readMessage_framing_errors ⟨false⟩ [255, 255, 255, 255, 7] rfl (by decide)).1
      (by decide),
    (readMessage_framing_errors ⟨false⟩ [0, 0, 0, 0, 7] rfl (by decide)).2 (by decide)⟩

/-- C9: the closed flag is sticky — `close()` sets it; any read that
signals `ConnectionClosed` leaves it set; while it is set, every
`read_message` raises `ConnectionClosed` without consuming input and
every `write_message` returns failure without writing bytes. -/
theorem closed_channel_sticky :
    (∀ st : ProtocolState, (protocolClose st).closed = true) ∧
    (∀ (st : ProtocolState) (input : List Nat) (st' : ProtocolState)
        (rem : List Nat),
      readMessage st input = (ReadResult.connectionClosed, st', rem) →
      st'.closed = true) ∧
    (∀ (st : ProtocolState) (input : List Nat), st.closed = true →
      readMessage st input = (ReadResult.connectionClosed, st, input)) ∧
    (∀ (st : ProtocolState) (msg : List (List Char × Json)), st.closed = true →
      writeMessage st msg = (false, [])) := by
  refine ⟨fun _ => rfl, ?_, ?_, ?_⟩
  · intro st input st' rem heq
    unfold readMessage at heq
    by_cases hcl : st.closed = true
    · rw [if_pos hcl] at heq
      simp only [Prod.mk.injEq] at heq
      obtain ⟨_, rfl, _⟩ := heq
      exact hcl
    · rw [if_neg hcl] at heq
      dsimp only at heq
      repeat' split at heq
      all_goals
        (injection heq with h1 h2
         first
           | exact ReadResult.noConfusion h1
           | (injection h2 with h3 h4
              rw [← h3]))
  · intro st input h
    rw [readMessage, if_pos h]
  · intro st msg h
    rw [writeMessage, if_pos h]

/-- Witness for C9: on a closed channel a read raises `ConnectionClosed`
leaving the stream untouched and a write fails writing nothing, and
`close()` marks the state closed. -/
theorem closed_channel_sticky_witness :
    readMessage ⟨true⟩ [1, 2, 3] = (ReadResult.connectionClosed, ⟨true⟩, [1, 2, 3]) ∧
      writeMessage ⟨true⟩ [] = (false, []) ∧
      (protocolClose ⟨false⟩).closed = true :=
  ⟨closed_channel_sticky.2.2.1 ⟨true⟩ [1, 2, 3] rfl,
    closed_channel_sticky.2.2.2 ⟨true⟩ [] rfl,
    closed_channel_sticky.1 ⟨false⟩⟩


/-- C10: parsing the initialize reply sets each capability flag iff the
corresponding key is present in the capabilities object; the bound value
is irrelevant (replacing every value by anything else, e.g. `false` or
`null`, leaves the parsed flags unchanged). -/
theorem from_dict_capability_key_presence (data : List (List Char × Json))
    (f : Json → Json) :
    ((MCPCapabilities.from_dict data).tools = hasKey data "tools".data ∧
      (MCPCapabilities.from_dict data).resources = hasKey data "resources".data ∧
      (MCPCapabilities.from_dict data).prompts = hasKey data "prompts".data ∧
      (MCPCapabilities.from_dict data).sampling = hasKey data "sampling".data ∧
      (MCPCapabilities.from_dict data).roots = hasKey data "roots".data) ∧
    MCPCapabilities.from_dict (data.map (fun kv => (kv.1, f kv.2)))
      = MCPCapabilities.from_dict data := by
  have hmap : ∀ k : List Char,
      hasKey (data.map (fun kv => (kv.1, f kv.2))) k = hasKey data k := by
    intro k
    simp only [hasKey, List.any_map]
    rfl
  refine ⟨⟨rfl, rfl, rfl, rfl, rfl⟩, ?_⟩
  simp only [MCPCapabilities.from_dict, hmap]


theorem noneIfNull_eq (o : Option Json) (h : o ≠ some Json.null) :
    JsonRpcRequest.noneIfNull o = o :=
  match o with
  | none => rfl
  | some Json.null => absurd rfl h
  | some (Json.bool _) => rfl
  | some (Json.num _) => rfl
  | some (Json.str _) => rfl
  | some (Json.arr _) => rfl
  | some (Json.obj _) => rfl

theorem getKey_to_dict_method (M : JsonRpcRequest) :
    getKey M.to_dict "method".data = some M.method := by
  obtain ⟨m, i, p, j⟩ := M
  cases i <;> cases p <;> rfl

theorem getKey_to_dict_jsonrpc (M : JsonRpcRequest) :
    getKey M.to_dict "jsonrpc".data = some M.jsonrpc := by
  obtain ⟨m, i, p, j⟩ := M
  cases i <;> cases p <;> rfl

theorem getKey_to_dict_id (M : JsonRpcRequest) :
    getKey M.to_dict "id".data = M.id := by
  obtain ⟨m, i, p, j⟩ := M
  cases i <;> cases p <;> rfl

theorem getKey_to_dict_params (M : JsonRpcRequest) :
    getKey M.to_dict "params".data = M.params := by
  obtain ⟨m, i, p, j⟩ := M
  cases i <;> cases p <;> rfl

theorem hasKey_to_dict_jsonrpc (M : JsonRpcRequest) :
    hasKey M.to_dict "jsonrpc".data = true := by
  obtain ⟨m, i, p, j⟩ := M
  cases i <;> cases p <;> rfl

theorem hasKey_to_dict_method (M : JsonRpcRequest) :
    hasKey M.to_dict "method".data = true := by
  obtain ⟨m, i, p, j⟩ := M
  cases i <;> cases p <;> rfl

/-- Dict-level round trip for requests (`types.py`): rebuilding a request
from its emitted dict restores every field, provided the optional fields
do not carry an explicit null (Python cannot distinguish that from
absence). -/
theorem from_dict_to_dict (M : JsonRpcRequest)
    (hid : M.id ≠ some Json.null) (hparams : M.params ≠ some Json.null) :
    JsonRpcRequest.from_dict M.to_dict = M := by
  rw [JsonRpcRequest.from_dict, getKey_to_dict_method, getKey_to_dict_jsonrpc,
    getKey_to_dict_id, getKey_to_dict_params, noneIfNull_eq _ hid,
    noneIfNull_eq _ hparams]
  simp [Option.getD]

/-- The claim's notion of a valid JSON-RPC request: a (control-free)
string method, an optional int-or-string id, optional object params, and
protocol version "2.0". -/
def validMessage (M : JsonRpcRequest) : Bool :=
  (match M.method with
   | Json.str s => wfStr s
   | _ => false) &&
  (match M.id with
   | none => true
   | some (Json.num _) => true
   | some (Json.str s) => wfStr s
   | some _ => false) &&
  (match M.params with
   | none => true
   | some (Json.obj kvs) => wfMembers kvs
   | some _ => false) &&
  (match M.jsonrpc with
   | Json.str s => s == "2.0".data
   | _ => false)

theorem utf8Encode_cons_length_pos (c : Char) (s : List Char) :
    1 ≤ (utf8Encode (c :: s)).length := by
  have h : utf8Encode (c :: s) = utf8EncodeChar c ++ utf8Encode s := by
    simp [utf8Encode]
  rw [h, List.length_append]
  have := utf8EncodeChar_length_pos c
  omega


/-- C5: writing a valid request over the channel and reading the frame
back succeeds and reproduces the request exactly — method, id, params and
jsonrpc fields included — leaving the channel open and the stream fully
consumed. -/
theorem write_read_roundtrip (M : JsonRpcRequest)
    (hvalid : validMessage M = true)
    (hsize : (utf8Encode (dumpJson (Json.obj M.to_dict))).length ≤ MAX_MESSAGE_SIZE) :
    (writeMessage ⟨false⟩ M.to_dict).1 = true ∧
    readMessage ⟨false⟩ (writeMessage ⟨false⟩ M.to_dict).2
      = (ReadResult.ok M, ⟨false⟩, []) := by
  simp only [validMessage, Bool.and_eq_true] at hvalid
  obtain ⟨⟨⟨hmeth, hid0⟩, hpar0⟩, hjr0⟩ := hvalid
  have hid : M.id ≠ some Json.null := by
    intro h
    rw [h] at hid0
    simp at hid0
  have hparams : M.params ≠ some Json.null := by
    intro h
    rw [h] at hpar0
    simp at hpar0
  obtain ⟨c0, t0, hct0, _, _, _⟩ := dumpJson_head (Json.obj M.to_dict)
  have hplen : 1 ≤ (utf8Encode (dumpJson (Json.obj M.to_dict))).length := by
    rw [hct0]
    exact utf8Encode_cons_length_pos c0 t0
  have hmax : MAX_MESSAGE_SIZE < 4294967296 := by norm_num [MAX_MESSAGE_SIZE]
  have hwrite : writeMessage ⟨false⟩ M.to_dict =
      (true, packUInt32BE (utf8Encode (dumpJson (Json.obj M.to_dict))).length ++
        utf8Encode (dumpJson (Json.obj M.to_dict))) := by
    rw [writeMessage, if_neg (by simp)]
    dsimp only
    rw [hasKey_to_dict_jsonrpc]
    rw [if_pos rfl]
    rw [if_neg (by omega)]
  have hpack4 : (packUInt32BE (utf8Encode (dumpJson (Json.obj M.to_dict))).length).length
      = 4 := rfl
  have hunpack : unpackUInt32BE
      ((packUInt32BE (utf8Encode (dumpJson (Json.obj M.to_dict))).length).getD 0 0)
      ((packUInt32BE (utf8Encode (dumpJson (Json.obj M.to_dict))).length).getD 1 0)
      ((packUInt32BE (utf8Encode (dumpJson (Json.obj M.to_dict))).length).getD 2 0)
      ((packUInt32BE (utf8Encode (dumpJson (Json.obj M.to_dict))).length).getD 3 0)
      = (utf8Encode (dumpJson (Json.obj M.to_dict))).length := by
    show unpackUInt32BE ((utf8Encode (dumpJson (Json.obj M.to_dict))).length / 16777216 % 256)
      ((utf8Encode (dumpJson (Json.obj M.to_dict))).length / 65536 % 256)
      ((utf8Encode (dumpJson (Json.obj M.to_dict))).length / 256 % 256)
      ((utf8Encode (dumpJson (Json.obj M.to_dict))).length % 256)
      = (utf8Encode (dumpJson (Json.obj M.to_dict))).length
    exact unpack_packUInt32BE _ (by omega)
  have hjr20 : isJsonrpc20 (some M.jsonrpc) = true := by
    cases hjc : M.jsonrpc <;> rw [hjc] at hjr0 <;> simp at hjr0
    · rename_i s
      rw [isJsonrpc20]
      simpa using hjr0
  have hread : readMessage ⟨false⟩
      (packUInt32BE (utf8Encode (dumpJson (Json.obj M.to_dict))).length ++
        utf8Encode (dumpJson (Json.obj M.to_dict)))
      = (ReadResult.ok M, ⟨false⟩, []) := by
    rw [readMessage, if_neg (by simp)]
    have hrb : readBytes 4
        (packUInt32BE (utf8Encode (dumpJson (Json.obj M.to_dict))).length ++
          utf8Encode (dumpJson (Json.obj M.to_dict)))
        = (some (packUInt32BE (utf8Encode (dumpJson (Json.obj M.to_dict))).length),
           utf8Encode (dumpJson (Json.obj M.to_dict))) := by
      rw [readBytes, if_neg (by omega), if_neg (by simp [packUInt32BE])]
      rw [List.take_left' hpack4, List.drop_left' hpack4]
    rw [hrb]
    dsimp only
    rw [if_neg (by rw [hpack4]; omega)]
    rw [hunpack]
    rw [if_neg (by omega), if_neg (by omega)]
    have hrb2 : readBytes (utf8Encode (dumpJson (Json.obj M.to_dict))).length
        (utf8Encode (dumpJson (Json.obj M.to_dict)))
        = (some (utf8Encode (dumpJson (Json.obj M.to_dict))), []) := by
      rw [readBytes, if_neg (by omega), if_neg (by
        rw [hct0]
        have h2 : ∃ b bs, utf8Encode (c0 :: t0) = b :: bs := by
          have := utf8EncodeChar_length_pos c0
          cases hE : utf8Encode (c0 :: t0) with
          | nil =>
            have h3 := utf8Encode_cons_length_pos c0 t0
            rw [hE] at h3
            simp at h3
          | cons b bs => exact ⟨b, bs, rfl⟩
        obtain ⟨b, bs, hbs⟩ := h2
        rw [hbs]
        simp)]
      rw [List.take_length, List.drop_length]
    rw [hrb2]
    dsimp only
    rw [if_neg (by omega)]
    rw [utf8Decode_encode]
    dsimp only
    rw [jsonLoads_dump]
    dsimp only
    rw [getKey_to_dict_jsonrpc, hjr20]
    rw [if_neg (by simp), hasKey_to_dict_method]
    rw [if_neg (by simp)]
    rw [from_dict_to_dict M hid hparams]
  rw [hwrite]
  exact ⟨rfl, hread⟩

set_option maxRecDepth 4096 in
/-- Witness for C5 at a concrete request: the `ping` request with id 1
written by the channel is read back identically. -/
theorem write_read_roundtrip_witness :
    (writeMessage ⟨false⟩ (JsonRpcRequest.mk (Json.str "ping".data)
        (some (Json.num 1)) none (Json.str "2.0".data)).to_dict).1 = true ∧
    readMessage ⟨false⟩ (writeMessage ⟨false⟩ (JsonRpcRequest.mk (Json.str "ping".data)
        (some (Json.num 1)) none (Json.str "2.0".data)).to_dict).2
      = (ReadResult.ok (JsonRpcRequest.mk (Json.str "ping".data)
          (some (Json.num 1)) none (Json.str "2.0".data)), ⟨false⟩, []) :=
  write_read_roundtrip
    (JsonRpcRequest.mk (Json.str "ping".data) (some (Json.num 1)) none
      (Json.str "2.0".data))
    (by decide)
    (by simp +decide [JsonRpcRequest.to_dict, dumpJson, dumpMembers, dumpElems,
          dumpInt, natDigits, escapeString, escapeChar, utf8Encode, utf8EncodeChar,
          MAX_MESSAGE_SIZE])


/-! ## Host dispatch engine (`Plugin`, plugin.py)

The dispatch of one inbound request (`Plugin._handle_request`), with
command handlers abstracted by their observable behaviour during the
call: the stream chunks they emit, and either a returned result (plus the
final keep-session flag) or a raised exception.  Messages are the
payloads handed to `Protocol.send_response` / `send_notification`. -/

/-- Behaviour of a registered command handler for one invocation. -/
inductive HandlerOutcome where
  | ok (streams : List (List Char)) (result : Json) (keep : Bool)
  | raises (streams : List (List Char)) (msg : List Char)
deriving Repr

/-- `CommandInfo` (plugin.py), with the handler abstracted. -/
structure CommandInfo where
  description : List Char
  handler : HandlerOutcome
deriving Repr

/-- The engine's registry and lifecycle flags (`Plugin.__init__`).
`sendOk` abstracts whether `Protocol.send_response` succeeds (it reports
delivery failure only through the `_initialized` flag). -/
structure PluginState where
  name : List Char
  version : List Char
  description : List Char
  commands : List (List Char × CommandInfo)
  running : Bool := true
  initialized : Bool := false
  sendOk : Bool := true
deriving Repr

/-- A message handed to the channel: a response or a notification. -/
inductive OutMsg where
  | response (r : JsonRpcResponse)
  | notif (n : JsonRpcNotification)
deriving Repr

/-- Python `method == "name"` where `method` may be any JSON value. -/
def isMethod (m : Json) (s : List Char) : Bool :=
  match m with
  | Json.str t => t == s
  | _ => false

/-- Python truthiness of a JSON value (`if request.params`). -/
def jsonTruthy : Json → Bool
  | Json.null => false
  | Json.bool b => b
  | Json.num n => n != 0
  | Json.str s => !s.isEmpty
  | Json.arr xs => !xs.isEmpty
  | Json.obj kvs => !kvs.isEmpty

/-- `request.params or {}` followed by `.get(...)`: yields the parameter
dict, or `none` when Python would raise `AttributeError` (a truthy
non-dict params), which `_run_loop` catches — the handler then emits
nothing. -/
def paramsDict : Option Json → Option (List (List Char × Json))
  | none => some []
  | some (Json.obj kvs) => some kvs
  | some v => if jsonTruthy v then none else some []

/-- Dict lookup `self._commands.get(function_name)` with a dynamically
typed key: an unhashable key (a list or a dict) raises `TypeError`
before the lookup (the outer `none`); among the hashable keys only a
string can match the registered string names, so the rest look up to
Python `None` (the inner `none`). -/
def getCommand (cmds : List (List Char × CommandInfo)) :
    Json → Option (Option CommandInfo)
  | Json.arr _ => none
  | Json.obj _ => none
  | Json.str s =>
    match cmds.find? (fun kv => kv.1 == s) with
    | some kv => some (some kv.2)
    | none => some none
  | _ => some none

/-- Whether Python `v[:50]` succeeds: only strings and lists are
sliceable among JSON values. -/
def canSlice : Json → Bool
  | Json.str _ => true
  | Json.arr _ => true
  | _ => false

/-- `Plugin.stream` for each chunk a handler emits: tagged notifications
when a request id is current, nothing when the request had no id
(`stream()` then only logs a warning). -/
def streamMsgs (id : Option Json) (streams : List (List Char)) : List OutMsg :=
  match id with
  | some i =>
    streams.map (fun d => OutMsg.notif
      ⟨"stream".data, some (Json.obj
        [("request_id".data, i), ("data".data, Json.str d)]), Json.str "2.0".data⟩)
  | none => []

/-- `Plugin._send_complete`. -/
def completeMsg (id : Option Json) (success : Bool) (data : Json) (keep : Bool) : OutMsg :=
  OutMsg.notif ⟨"complete".data, some (Json.obj
    [("request_id".data, id.getD Json.null), ("success".data, Json.bool success),
      ("data".data, data), ("keep_session".data, Json.bool keep)]), Json.str "2.0".data⟩

/-- `Plugin._send_error`. -/
def errorMsg (id : Option Json) (code : Int) (msg : List Char) : OutMsg :=
  OutMsg.notif ⟨"error".data, some (Json.obj
    [("request_id".data, id.getD Json.null), ("code".data, Json.num code),
      ("message".data, Json.str msg)]), Json.str "2.0".data⟩

/-- `Plugin._handle_ping`: respond immediately, echoing the timestamp;
`request.params.get("timestamp") if request.params else None`. -/
def handlePing (st : PluginState) (request : JsonRpcRequest) :
    PluginState × List OutMsg :=
  match request.params with
  | some (Json.obj kvs) =>
    if kvs.isEmpty then
      (st, [OutMsg.response (JsonRpcResponse.success (request.id.getD Json.null)
        (Json.obj [("timestamp".data, Json.null)]))])
    else
      (st, [OutMsg.response (JsonRpcResponse.success (request.id.getD Json.null)
        (Json.obj [("timestamp".data, (getKey kvs "timestamp".data).getD Json.null)]))])
  | some v =>
    if jsonTruthy v then (st, [])
    else
      (st, [OutMsg.response (JsonRpcResponse.success (request.id.getD Json.null)
        (Json.obj [("timestamp".data, Json.null)]))])
  | none =>
    (st, [OutMsg.response (JsonRpcResponse.success (request.id.getD Json.null)
      (Json.obj [("timestamp".data, Json.null)]))])

/-- `Plugin._handle_initialize`: reply with identity and the registered
command list; `_initialized` becomes true only if the send succeeded. -/
def handleInit (st : PluginState) (request : JsonRpcRequest) :
    PluginState × List OutMsg :=
  match paramsDict request.params with
  | none => (st, [])
  | some _ =>
    let commands_list := st.commands.map (fun kv => Json.obj
      [("name".data, Json.str kv.1), ("description".data, Json.str kv.2.description)])
    let response := JsonRpcResponse.success (request.id.getD Json.null)
      (Json.obj [("name".data, Json.str st.name), ("version".data, Json.str st.version),
        ("description".data, Json.str st.description),
        ("protocol_version".data, Json.str "2.0".data),
        ("commands".data, Json.arr commands_list)])
    if st.sendOk then ({ st with initialized := true }, [OutMsg.response response])
    else (st, [OutMsg.response response])

/-- `Plugin._handle_execute`: an unhashable `function` value makes
`self._commands.get(function_name)` raise `TypeError` before anything is
sent (the loop swallows it); an unknown command gets a METHOD_NOT_FOUND
error response; a found handler runs with the current request id set,
streams, and finishes with a `complete` (or `error`) notification. -/
def handleExecute (st : PluginState) (request : JsonRpcRequest) :
    PluginState × List OutMsg :=
  match paramsDict request.params with
  | none => (st, [])
  | some params =>
    let function_name := (getKey params "function".data).getD (Json.str "".data)
    match getCommand st.commands function_name with
    | none => (st, [])
    | some none =>
      (st, [OutMsg.response (JsonRpcResponse.make_error (request.id.getD Json.null)
        ErrorCode.METHOD_NOT_FOUND
        ("Unknown command: ".data ++
          (match function_name with | Json.str s => s | _ => [])))])
    | some (some cmd) =>
      match cmd.handler with
      | HandlerOutcome.ok streams result keep =>
        (st, streamMsgs request.id streams ++
          [completeMsg request.id true result keep])
      | HandlerOutcome.raises streams msg =>
        (st, streamMsgs request.id streams ++
          [errorMsg request.id ErrorCode.PLUGIN_ERROR msg])

/-- `Plugin._handle_input`: the log line slices `content[:50]` before the
acknowledgment, so a non-sliceable `content` raises `TypeError` with
nothing sent; otherwise acknowledge synchronously, then run the
`on_input` handler if registered, else echo.  (The `on_input` key is a
literal string, so that lookup never raises.) -/
def handleInput (st : PluginState) (request : JsonRpcRequest) :
    PluginState × List OutMsg :=
  match paramsDict request.params with
  | none => (st, [])
  | some params =>
    let content := (getKey params "content".data).getD (Json.str "".data)
    if canSlice content then
      let ack := OutMsg.response (JsonRpcResponse.success (request.id.getD Json.null)
        (Json.obj [("acknowledged".data, Json.bool true)]))
      match getCommand st.commands (Json.str "on_input".data) with
      | some (some cmd) =>
        match cmd.handler with
        | HandlerOutcome.ok streams result keep =>
          (st, ack :: (streamMsgs request.id streams ++
            [completeMsg request.id true result keep]))
        | HandlerOutcome.raises streams msg =>
          (st, ack :: (streamMsgs request.id streams ++
            [errorMsg request.id ErrorCode.PLUGIN_ERROR msg]))
      | _ =>
        (st, [ack, completeMsg request.id true
          (Json.str ("Received: ".data ++
            (match content with | Json.str s => s | _ => []))) false])
    else (st, [])

/-- `Plugin._handle_request` (plugin.py): route by method name; unknown
methods are answered with METHOD_NOT_FOUND only when the request carries
an id, and silently dropped for notifications. -/
def handleRequest (st : PluginState) (request : JsonRpcRequest) :
    PluginState × List OutMsg :=
  if isMethod request.method "ping".data then handlePing st request
  else if isMethod request.method "initialize".data then handleInit st request
  else if isMethod request.method "execute".data then handleExecute st request
  else if isMethod request.method "input".data then handleInput st request
  else if isMethod request.method "shutdown".data then
    ({ st with running := false }, [])
  else
    if request.is_notification then (st, [])
    else
      (st, [OutMsg.response (JsonRpcResponse.make_error (request.id.getD Json.null)
        ErrorCode.METHOD_NOT_FOUND "Unknown method".data)])

/-- Number of `Response` messages in a dispatch output. -/
def responseCount (msgs : List OutMsg) : Nat :=
  (msgs.filter (fun m => match m with
    | OutMsg.response _ => true
    | OutMsg.notif _ => false)).length


theorem responseCount_append (a b : List OutMsg) :
    responseCount (a ++ b) = responseCount a + responseCount b := by
  simp [responseCount, List.filter_append]

theorem responseCount_streamMsgs (id : Option Json) (strs : List (List Char)) :
    responseCount (streamMsgs id strs) = 0 := by
  cases id with
  | none => rfl
  | some i =>
    simp [streamMsgs, responseCount, List.filter_map]

/-- C1 counterexample: an id-less `ping` (a Notification) is nonetheless
answered with a Response (with a null id) by the dispatcher, contradicting
the claim that notifications never produce a Response. -/
theorem dispatch_notification_gets_response :
    (JsonRpcRequest.mk (Json.str "ping".data) none none
        (Json.str "2.0".data)).is_notification = true ∧
    responseCount (handleRequest
      (PluginState.mk "launchpad".data "1.0.0".data [] [] true false true)
      (JsonRpcRequest.mk (Json.str "ping".data) none none
        (Json.str "2.0".data))).2 = 1 := by
  exact ⟨rfl, rfl⟩

/-- C1 (amended): for any request with well-formed params (absent, falsy,
or an object — otherwise every handler raises before responding and the
loop swallows it), the number of Responses sent by the dispatcher is:
exactly one for `ping` and `initialize` regardless of id presence; for
`input`, one (the acknowledgment) when the `content` parameter is
sliceable (a string or a list, including the absent-key default) and
zero otherwise (`content[:50]` raises before the acknowledgment); for
`execute`, zero when the `function` value is a list or dict (the dict
lookup raises before any send), one when it is hashable but unregistered
(the error response), and zero when a handler runs (it completes via
notifications); zero for `shutdown`; and for unknown methods, one when
an id is present and zero for notifications. -/
theorem dispatch_response_count (st : PluginState) (request : JsonRpcRequest)
    (hok : (paramsDict request.params).isSome = true) :
    responseCount (handleRequest st request).2 =
      (if isMethod request.method "ping".data then 1
       else if isMethod request.method "initialize".data then 1
       else if isMethod request.method "execute".data then
         (match paramsDict request.params with
          | some params =>
            (match getCommand st.commands
                ((getKey params "function".data).getD (Json.str "".data)) with
             | none => 0
             | some none => 1
             | some (some _) => 0)
          | none => 0)
       else if isMethod request.method "input".data then
         (match paramsDict request.params with
          | some params =>
            if canSlice ((getKey params "content".data).getD (Json.str "".data))
            then 1 else 0
          | none => 0)
       else if isMethod request.method "shutdown".data then 0
       else if request.is_notification then 0 else 1) := by
  rw [handleRequest]
  by_cases h1 : isMethod request.method "ping".data = true
  · rw [if_pos h1, if_pos h1]
    rw [handlePing]
    cases hp : request.params with
    | none => rfl
    | some v =>
      cases v <;> simp_all [paramsDict, responseCount]
      rename_i kvs
      cases kvs.isEmpty <;> simp [responseCount]
  · rw [if_neg h1, if_neg h1]
    by_cases h2 : isMethod request.method "initialize".data = true
    · rw [if_pos h2, if_pos h2]
      rw [handleInit]
      obtain ⟨params, hp⟩ := Option.isSome_iff_exists.mp hok
      rw [hp]
      dsimp only
      cases st.sendOk <;> simp [responseCount]
    · rw [if_neg h2, if_neg h2]
      by_cases h3 : isMethod request.method "execute".data = true
      · rw [if_pos h3, if_pos h3]
        rw [handleExecute]
        obtain ⟨params, hp⟩ := Option.isSome_iff_exists.mp hok
        rw [hp]
        dsimp only
        cases hc : getCommand st.commands
            ((getKey params "function".data).getD (Json.str "".data)) with
        | none => simp [responseCount]
        | some o =>
          cases o with
          | none => simp [responseCount]
          | some cmd =>
            dsimp only
            cases cmd.handler with
            | ok streams result keep =>
              dsimp only
              rw [responseCount_append, responseCount_streamMsgs]
              rfl
            | raises streams msg =>
              dsimp only
              rw [responseCount_append, responseCount_streamMsgs]
              rfl
      · rw [if_neg h3, if_neg h3]
        by_cases h4 : isMethod request.method "input".data = true
        · rw [if_pos h4, if_pos h4]
          rw [handleInput]
          obtain ⟨params, hp⟩ := Option.isSome_iff_exists.mp hok
          rw [hp]
          dsimp only
          cases hs : canSlice ((getKey params "content".data).getD (Json.str "".data)) with
          | false =>
            simp [responseCount]
          | true =>
            simp only [reduceIte]
            cases hc : getCommand st.commands (Json.str "on_input".data) with
            | none => simp [responseCount, completeMsg]
            | some o =>
              cases o with
              | none => simp [responseCount, completeMsg]
              | some cmd =>
                dsimp only
                cases cmd.handler with
                | ok streams result keep =>
                  dsimp only
                  show responseCount (_ :: (streamMsgs request.id streams ++ [_])) = 1
                  rw [show ∀ (m : OutMsg) (l : List OutMsg), m :: l = [m] ++ l
                    from fun _ _ => rfl]
                  rw [responseCount_append, responseCount_append,
                    responseCount_streamMsgs]
                  rfl
                | raises streams msg =>
                  dsimp only
                  show responseCount (_ :: (streamMsgs request.id streams ++ [_])) = 1
                  rw [show ∀ (m : OutMsg) (l : List OutMsg), m :: l = [m] ++ l
                    from fun _ _ => rfl]
                  rw [responseCount_append, responseCount_append,
                    responseCount_streamMsgs]
                  rfl
        · rw [if_neg h4, if_neg h4]
          by_cases h5 : isMethod request.method "shutdown".data = true
          · rw [if_pos h5, if_pos h5]
            rfl
          · rw [if_neg h5, if_neg h5]
            cases hn : request.is_notification <;> simp [responseCount]

/-- Witness for C1's amended statement: an `execute` of an unregistered
command with id 7 yields exactly one (error) Response. -/
theorem dispatch_response_count_witness :
    responseCount (handleRequest
      (PluginState.mk "launchpad".data "1.0.0".data [] [] true false true)
      (JsonRpcRequest.mk (Json.str "execute".data) (some (Json.num 7))
        (some (Json.obj [("function".data, Json.str "foo".data)]))
        (Json.str "2.0".data))).2 = 1 := by
  have h := dispatch_response_count
    (PluginState.mk "launchpad".data "1.0.0".data [] [] true false true)
    (JsonRpcRequest.mk (Json.str "execute".data) (some (Json.num 7))
      (some (Json.obj [("function".data, Json.str "foo".data)]))
      (Json.str "2.0".data))
    (by decide)
  rw [h]
  rfl


/-! ## HTTP transport (`HTTPTransport`, mcp.py)

The network is abstracted by `HttpReply`: what one `requests.post`
produces.  Time is an explicit `Nat` of seconds.  The transport state is
threaded explicitly; exceptions are returned alongside the state because
Python's raised exceptions leave the mutated object state behind. -/

/-- Outcome of one `requests.post`: a failure before any response arrived
(connection error or timeout), or an HTTP response carrying a status
code, an optional `mcp-session-id` header, and a JSON body. -/
inductive HttpReply where
  | netFail
  | reply (status : Nat) (sessionHeader : Option (List Char)) (body : Json)

/-- `MCPError` (mcp.py): message, code (default -1), optional data. -/
structure MCPErr where
  code : Int
  message : List Char
  data : Option Json := none
deriving Repr

structure HTTPTransportState where
  session_id : Option (List Char) := none
  session_last_used : Nat := 0
  session_timeout : Nat := 300
  closed : Bool := false
  pending : List (Int × Json) := []
deriving Repr

namespace HTTPTransportState

/-- `HTTPTransport.send`: capture the session header, refresh the
last-used stamp, clear the session and raise on HTTP 400/401/403, raise
on other non-2xx statuses, and stash the body for request ids. -/
def send (tr : HTTPTransportState) (msgId : Option Int) (r : HttpReply)
    (now : Nat) : HTTPTransportState × Option MCPErr :=
  if tr.closed then (tr, some ⟨-1, "Transport is closed".data, none⟩)
  else
    match r with
    | HttpReply.netFail => (tr, some ⟨-1, "Cannot connect".data, none⟩)
    | HttpReply.reply status hdr body =>
      let tr1 := { tr with
        session_id := match hdr with
          | some sid => some sid
          | none => tr.session_id
        session_last_used := now }
      if status = 400 ∨ status = 401 ∨ status = 403 then
        ({ tr1 with session_id := none },
          some ⟨(status : Int), "Session error".data, none⟩)
      else if 400 ≤ status then
        (tr1, some ⟨-1, "HTTP error".data, none⟩)
      else
        match msgId with
        | some i =>
          ({ tr1 with pending := (i, body) :: tr1.pending.filter (fun kv => kv.1 != i) },
            none)
        | none => (tr1, none)

/-- Pop `self._pending_responses.pop(msg_id)`. -/
def popPending (tr : HTTPTransportState) (i : Int) :
    Option Json × HTTPTransportState :=
  match tr.pending.find? (fun kv => kv.1 == i) with
  | some kv => (some kv.2, { tr with pending := tr.pending.filter (fun e => e.1 != i) })
  | none => (none, tr)

/-- `HTTPTransport.send_and_receive`. -/
def send_and_receive (tr : HTTPTransportState) (i : Int) (r : HttpReply)
    (now : Nat) : HTTPTransportState × Except MCPErr Json :=
  let (tr1, e) := tr.send (some i) r now
  match e with
  | some err => (tr1, Except.error err)
  | none =>
    match tr1.popPending i with
    | (some body, tr2) => (tr2, Except.ok body)
    | (none, tr2) => (tr2, Except.error ⟨-1, "No response received".data, none⟩)

/-- `HTTPTransport.close`. -/
def close (tr : HTTPTransportState) : HTTPTransportState :=
  { tr with closed := true, session_id := none, pending := [] }

/-- `HTTPTransport.is_session_stale`. -/
def is_session_stale (tr : HTTPTransportState) (now : Nat) : Bool :=
  match tr.session_id with
  | none => true
  | some _ => decide (tr.session_last_used + tr.session_timeout < now)

/-- `HTTPTransport.refresh_session`: clear the session without contacting
the peer. -/
def refresh_session (tr : HTTPTransportState) : HTTPTransportState :=
  { tr with session_id := none, session_last_used := 0 }

end HTTPTransportState


/-! ## MCP client (`MCPClient`, mcp.py), over the HTTP transport

The environment is an infinite reply oracle `env : Nat → HttpReply`; each
operation returns the next unused oracle index together with the trace of
JSON-RPC method names it sent, so "how many requests were issued" is a
provable observable. -/

structure MCPServerInfo where
  name : List Char := []
  version : List Char := []
  capabilities : MCPCapabilities := {}
deriving Repr

/-- `MCPServerInfo.from_dict` (mcp.py); non-object fields fall back to
the dataclass defaults exactly as chained `.get(..., {})` does. -/
def MCPServerInfo.from_dict (data : Json) : MCPServerInfo :=
  match data with
  | Json.obj kvs =>
    { name := match getKey kvs "serverInfo".data with
        | some (Json.obj si) =>
          (match getKey si "name".data with
           | some (Json.str s) => s
           | _ => [])
        | _ => []
      version := match getKey kvs "serverInfo".data with
        | some (Json.obj si) =>
          (match getKey si "version".data with
           | some (Json.str s) => s
           | _ => [])
        | _ => []
      capabilities := MCPCapabilities.from_dict
        (match getKey kvs "capabilities".data with
         | some (Json.obj c) => c
         | _ => []) }
  | _ => {}

structure MCPClientState where
  transport : HTTPTransportState
  initialized : Bool := false
  server_info : Option MCPServerInfo := none
  request_id : Int := 0
deriving Repr

namespace MCPClientState

/-- `MCPClient.is_connected`. -/
def is_connected (st : MCPClientState) : Bool :=
  st.initialized && !st.transport.closed

/-- The `MCPError` raised by `_send_request` from a JSON-RPC `error`
member. -/
def errFromJson : Option Json → MCPErr
  | some (Json.obj e) =>
    { code := match getKey e "code".data with
        | some (Json.num c) => c
        | _ => -1
      message := match getKey e "message".data with
        | some (Json.str m) => m
        | _ => []
      data := getKey e "data".data }
  | _ => ⟨-1, [], none⟩

/-- `MCPClient._send_request`: allocate the next id, `send_and_receive`,
raise on a JSON-RPC `error` member, otherwise unwrap `result` (defaulting
to the empty object).  JSON-RPC reply bodies are objects; a non-object
body is outside the modelled protocol and unwraps to the empty object. -/
def sendRequest (st : MCPClientState) (r : HttpReply) (now : Nat) :
    MCPClientState × Except MCPErr Json :=
  let i := st.request_id + 1
  let st1 := { st with request_id := i }
  let (tr, res) := st1.transport.send_and_receive i r now
  let st2 := { st1 with transport := tr }
  match res with
  | Except.error e => (st2, Except.error e)
  | Except.ok body =>
    match body with
    | Json.obj kvs =>
      if hasKey kvs "error".data then
        (st2, Except.error (errFromJson (getKey kvs "error".data)))
      else (st2, Except.ok ((getKey kvs "result".data).getD (Json.obj [])))
    | _ => (st2, Except.ok (Json.obj []))

/-- `MCPClient._send_notification`: fire-and-forget `send` without an id. -/
def sendNotification (st : MCPClientState) (r : HttpReply) (now : Nat) :
    MCPClientState × Option MCPErr :=
  let (tr, e) := st.transport.send none r now
  ({ st with transport := tr }, e)

/-- `MCPClient.connect` (HTTP transport): refresh a stale session and
drop readiness, short-circuit when already initialized, then run
`initialize` followed by the `notifications/initialized` notification.
Returns the state, the next oracle index, the success flag, and the
trace of sent method names. -/
def connect (st : MCPClientState) (env : Nat → HttpReply) (k : Nat)
    (now : Nat) : MCPClientState × Nat × Bool × List (List Char) :=
  let st1 := if st.transport.is_session_stale now then
      { st with transport := st.transport.refresh_session, initialized := false }
    else st
  if st1.initialized then (st1, k, true, [])
  else
    let (st2, res) := sendRequest st1 (env k) now
    match res with
    | Except.error _ => (st2, k + 1, false, ["initialize".data])
    | Except.ok result =>
      let st3 := { st2 with server_info := some (MCPServerInfo.from_dict result) }
      let (st4, e) := sendNotification st3 (env (k + 1)) now
      match e with
      | some _ =>
        (st4, k + 2, false, ["initialize".data, "notifications/initialized".data])
      | none =>
        ({ st4 with initialized := true }, k + 2, true,
          ["initialize".data, "notifications/initialized".data])

/-- `MCPClient._ensure_connected`. -/
def ensureConnected (st : MCPClientState) (env : Nat → HttpReply) (k : Nat)
    (now : Nat) : MCPClientState × Nat × Bool × List (List Char) :=
  if st.is_connected then (st, k, true, []) else st.connect env k now

end MCPClientState

/-- First text item scan of `_extract_content`'s content-array branch. -/
def scanContent : List Json → Option Json
  | [] => none
  | item :: rest =>
    match item with
    | Json.obj ikvs =>
      if (match getKey ikvs "type".data with
          | some (Json.str t) => t == "text".data
          | _ => false) then
        some (match jsonLoads (match getKey ikvs "text".data with
                | some (Json.str s) => s
                | _ => []) with
          | some j => j
          | none => Json.obj [("text".data,
              Json.str (match getKey ikvs "text".data with
                | some (Json.str s) => s
                | _ => []))])
      else scanContent rest
    | _ => scanContent rest

/-- `MCPClient._extract_content`: prefer `structuredContent`, else parse
the first text item of the `content` array, else return the result as
is; non-dict results are wrapped as `{"raw": ...}`. -/
def extract_content (result : Json) : Json :=
  match result with
  | Json.obj kvs =>
    if hasKey kvs "structuredContent".data then
      (getKey kvs "structuredContent".data).getD Json.null
    else if hasKey kvs "content".data then
      match getKey kvs "content".data with
      | some (Json.arr items) =>
        (match scanContent items with
         | some j => j
         | none => Json.obj kvs)
      | _ => Json.obj kvs
    else Json.obj kvs
  | v => Json.obj [("raw".data, v)]

namespace MCPClientState

/-- The body of `MCPClient.call_tool` without the session-error retry:
ensure connected (raising `Not connected` when that fails), issue
`tools/call`, and unwrap the content. -/
def callToolCore (st : MCPClientState) (env : Nat → HttpReply) (k : Nat)
    (now : Nat) : MCPClientState × Nat × Except MCPErr Json × List (List Char) :=
  let (st1, k1, ok, tr0) := st.ensureConnected env k now
  if ok = false then (st1, k1, Except.error ⟨-1, "Not connected to MCP server".data, none⟩, tr0)
  else
    let (st2, res) := sendRequest st1 (env k1) now
    match res with
    | Except.ok result => (st2, k1 + 1, Except.ok (extract_content result),
        tr0 ++ ["tools/call".data])
    | Except.error e => (st2, k1 + 1, Except.error e, tr0 ++ ["tools/call".data])

/-- `MCPClient.call_tool` with `retry_on_session_error`: on a 400/401/403
error code, drop readiness, clear the session, reconnect once, and rerun
the call with retries disabled (`callToolCore` is exactly the retry-free
call); any other error, or a failed reconnect, re-raises the original
error. -/
def call_tool (retry : Bool) (st : MCPClientState) (env : Nat → HttpReply)
    (k : Nat) (now : Nat) :
    MCPClientState × Nat × Except MCPErr Json × List (List Char) :=
  let (st1, k1, res, tr) := st.callToolCore env k now
  match res with
  | Except.ok v => (st1, k1, Except.ok v, tr)
  | Except.error e =>
    if retry ∧ (e.code = 400 ∨ e.code = 401 ∨ e.code = 403) then
      let st2 := { st1 with
        initialized := false
        transport := st1.transport.refresh_session }
      let (st3, k2, cok, tr1) := st2.connect env k1 now
      if cok then
        let (st4, k3, res2, tr2) := st3.callToolCore env k2 now
        (st4, k3, res2, tr ++ tr1 ++ tr2)
      else (st3, k2, Except.error e, tr ++ tr1)
    else (st1, k1, Except.error e, tr)

/-- `MCPClient.list_resources`: empty list when not connected; empty list
with a warning when the peer did not advertise the `resources`
capability; otherwise issue `resources/list` and unwrap the list. -/
def list_resources (st : MCPClientState) (env : Nat → HttpReply) (k : Nat)
    (now : Nat) : MCPClientState × Nat × Except MCPErr Json × List (List Char) :=
  let (st1, k1, ok, tr0) := st.ensureConnected env k now
  if ok = false then (st1, k1, Except.ok (Json.arr []), tr0)
  else if (match st1.server_info with
      | some si => si.capabilities.resources
      | none => false) = false then
    (st1, k1, Except.ok (Json.arr []), tr0)
  else
    let (st2, res) := sendRequest st1 (env k1) now
    match res with
    | Except.ok result =>
      (st2, k1 + 1, Except.ok (match result with
        | Json.obj kvs => (getKey kvs "resources".data).getD (Json.arr [])
        | _ => Json.arr []), tr0 ++ ["resources/list".data])
    | Except.error e => (st2, k1 + 1, Except.error e, tr0 ++ ["resources/list".data])

/-- `MCPClient.read_resource`: ensure connected (raising on failure) and
issue `resources/read` — with no capability check. -/
def read_resource (st : MCPClientState) (env : Nat → HttpReply) (k : Nat)
    (now : Nat) : MCPClientState × Nat × Except MCPErr Json × List (List Char) :=
  let (st1, k1, ok, tr0) := st.ensureConnected env k now
  if ok = false then (st1, k1, Except.error ⟨-1, "Not connected".data, none⟩, tr0)
  else
    let (st2, res) := sendRequest st1 (env k1) now
    match res with
    | Except.ok result => (st2, k1 + 1, Except.ok (extract_content result),
        tr0 ++ ["resources/read".data])
    | Except.error e => (st2, k1 + 1, Except.error e, tr0 ++ ["resources/read".data])

/-- `MCPClient.list_prompts`: like `list_resources`, gated on the
`prompts` capability. -/
def list_prompts (st : MCPClientState) (env : Nat → HttpReply) (k : Nat)
    (now : Nat) : MCPClientState × Nat × Except MCPErr Json × List (List Char) :=
  let (st1, k1, ok, tr0) := st.ensureConnected env k now
  if ok = false then (st1, k1, Except.ok (Json.arr []), tr0)
  else if (match st1.server_info with
      | some si => si.capabilities.prompts
      | none => false) = false then
    (st1, k1, Except.ok (Json.arr []), tr0)
  else
    let (st2, res) := sendRequest st1 (env k1) now
    match res with
    | Except.ok result =>
      (st2, k1 + 1, Except.ok (match result with
        | Json.obj kvs => (getKey kvs "prompts".data).getD (Json.arr [])
        | _ => Json.arr []), tr0 ++ ["prompts/list".data])
    | Except.error e => (st2, k1 + 1, Except.error e, tr0 ++ ["prompts/list".data])

/-- `MCPClient.get_prompt`: ensure connected (raising on failure) and
issue `prompts/get` — with no capability check and no unwrapping. -/
def get_prompt (st : MCPClientState) (env : Nat → HttpReply) (k : Nat)
    (now : Nat) : MCPClientState × Nat × Except MCPErr Json × List (List Char) :=
  let (st1, k1, ok, tr0) := st.ensureConnected env k now
  if ok = false then (st1, k1, Except.error ⟨-1, "Not connected".data, none⟩, tr0)
  else
    let (st2, res) := sendRequest st1 (env k1) now
    match res with
    | Except.ok result => (st2, k1 + 1, Except.ok result,
        tr0 ++ ["prompts/get".data])
    | Except.error e => (st2, k1 + 1, Except.error e, tr0 ++ ["prompts/get".data])

end MCPClientState


/-- C4 counterexample: `HTTPTransport.close()` also clears the stored
session token — here no 400/401/403 was observed and the session has been
idle for zero seconds, yet the token is gone — so "in no other case" is
false. -/
theorem close_clears_session_counterexample :
    (HTTPTransportState.close
      { session_id := some "abc".data, session_last_used := 5,
        session_timeout := 300, closed := false, pending := [] }).session_id = none
    ∧ HTTPTransportState.is_session_stale
      { session_id := some "abc".data, session_last_used := 5,
        session_timeout := 300, closed := false, pending := [] } 5 = false :=
  ⟨rfl, by decide⟩

/-- C4 (amended): the stored session token is cleared by a 400/401/403
response on an open transport, by `refresh_session` (which the client
invokes exactly when the session is stale at connect time — idle beyond
the configured timeout — or after a session-class error), and by
`close()`; no other transport operation clears it: a send that raises
before a response (network failure), a send on a closed transport, a
non-4xx response, and `popPending` all preserve a stored token. -/
theorem session_token_clearing (tr : HTTPTransportState) (s : List Char)
    (hs : tr.session_id = some s) :
    (∀ (msgId : Option Int) (hdr : Option (List Char)) (body : Json)
        (now : Nat) (status : Nat), status = 400 ∨ status = 401 ∨ status = 403 →
      tr.closed = false →
      (tr.send msgId (HttpReply.reply status hdr body) now).1.session_id = none) ∧
    tr.refresh_session.session_id = none ∧
    tr.close.session_id = none ∧
    (∀ now, tr.is_session_stale now
      = decide (tr.session_last_used + tr.session_timeout < now)) ∧
    (∀ (msgId : Option Int) (r : HttpReply) (now : Nat),
      (tr.send msgId r now).1.session_id = none →
      ∃ status hdr body, r = HttpReply.reply status hdr body ∧
        (status = 400 ∨ status = 401 ∨ status = 403)) ∧
    (∀ i : Int, (tr.popPending i).2.session_id = tr.session_id) := by
  refine ⟨?_, rfl, rfl, ?_, ?_, ?_⟩
  · intro msgId hdr body now status hstat hcl
    rw [HTTPTransportState.send.eq_def, if_neg (by simp [hcl])]
    dsimp only
    rw [if_pos hstat]
  · intro now
    rw [HTTPTransportState.is_session_stale.eq_def, hs]
  · intro msgId r now hclear
    rw [HTTPTransportState.send.eq_def] at hclear
    by_cases hcl : tr.closed = true
    · rw [if_pos hcl] at hclear
      dsimp only at hclear
      rw [hs] at hclear
      exact absurd hclear (by simp)
    · rw [if_neg hcl] at hclear
      cases r with
      | netFail =>
        dsimp only at hclear
        rw [hs] at hclear
        exact absurd hclear (by simp)
      | reply status hdr body =>
        refine ⟨status, hdr, body, rfl, ?_⟩
        dsimp only at hclear
        by_cases h4 : status = 400 ∨ status = 401 ∨ status = 403
        · exact h4
        · rw [if_neg h4] at hclear
          by_cases h5 : 400 ≤ status
          · rw [if_pos h5] at hclear
            dsimp only at hclear
            cases hdr with
            | none => rw [hs] at hclear; exact absurd hclear (by simp)
            | some sid => exact absurd hclear (by simp)
          · rw [if_neg h5] at hclear
            cases msgId with
            | some i =>
              dsimp only at hclear
              cases hdr with
              | none => rw [hs] at hclear; exact absurd hclear (by simp)
              | some sid => exact absurd hclear (by simp)
            | none =>
              dsimp only at hclear
              cases hdr with
              | none => rw [hs] at hclear; exact absurd hclear (by simp)
              | some sid => exact absurd hclear (by simp)
  · intro i
    rw [HTTPTransportState.popPending]
    cases tr.pending.find? (fun kv => kv.1 == i) <;> rfl


/-- Witness for C4's amended statement: a concrete open transport holding
a token loses it on a 401 response, while `popPending` preserves it. -/
theorem session_token_clearing_witness :
    (HTTPTransportState.send
      { session_id := some "s".data, session_last_used := 0, session_timeout := 300,
        closed := false, pending := [] } none (HttpReply.reply 401 none Json.null)
      7).1.session_id = none ∧
    (HTTPTransportState.popPending
      { session_id := some "s".data, session_last_used := 0, session_timeout := 300,
        closed := false, pending := [] } 1).2.session_id = some "s".data := by
  constructor
  · exact (session_token_clearing _ "s".data rfl).1 none none Json.null 7 401
      (Or.inr (Or.inl rfl)) rfl
  · rw [(session_token_clearing
      { session_id := some "s".data, session_last_used := 0, session_timeout := 300,
        closed := false, pending := [] } "s".data rfl).2.2.2.2.2 1]

theorem sendRequest_initialized (st : MCPClientState) (r : HttpReply) (now : Nat) :
    (st.sendRequest r now).1.initialized = st.initialized := by
  rw [MCPClientState.sendRequest.eq_def]
  dsimp only
  split
  · rfl
  · split <;> first | rfl | split <;> rfl

theorem sendNotification_initialized (st : MCPClientState) (r : HttpReply)
    (now : Nat) : (st.sendNotification r now).1.initialized = st.initialized := rfl

/-- C6: `connect()` on a Ready client with a fresh session is a pure
no-op returning success (no request is sent, no state changes); and
whenever `connect()` returns failure — whatever step of the initialize
sequence failed — the client ends the call not Ready. -/
theorem connect_noop_or_atomic :
    (∀ (st : MCPClientState) (env : Nat → HttpReply) (k now : Nat),
      st.initialized = true → st.transport.is_session_stale now = false →
      st.connect env k now = (st, k, true, [])) ∧
    (∀ (st st' : MCPClientState) (env : Nat → HttpReply) (k now k' : Nat)
        (tr : List (List Char)),
      st.connect env k now = (st', k', false, tr) → st'.initialized = false) := by
  constructor
  · intro st env k now hinit hfresh
    rw [MCPClientState.connect]
    dsimp only
    rw [hfresh]
    simp [hinit]
  · intro st st' env k now k' tr heq
    rw [MCPClientState.connect] at heq
    dsimp only at heq
    cases hst : st.transport.is_session_stale now with
    | true =>
      rw [hst] at heq
      simp only [reduceIte, Bool.false_eq_true, if_false, if_true] at heq
      rcases hsr : MCPClientState.sendRequest
          { st with transport := st.transport.refresh_session, initialized := false }
          (env k) now with ⟨st2, res⟩
      rw [hsr] at heq
      have hst2 : st2.initialized = false := by
        have h2 : (MCPClientState.sendRequest
            { st with transport := st.transport.refresh_session, initialized := false }
            (env k) now).1.initialized = false := by
          rw [sendRequest_initialized]
        rw [hsr] at h2
        exact h2
      cases res with
      | error e =>
        have h5 : st2.initialized = st'.initialized := by
          have h6 := congrArg (fun p => p.1.initialized) heq
          simpa using h6
        rw [← h5]
        exact hst2
      | ok result =>
        dsimp only at heq
        rcases hsn : MCPClientState.sendNotification
            { st2 with server_info := some (MCPServerInfo.from_dict result) }
            (env (k + 1)) now with ⟨st4, e⟩
        rw [hsn] at heq
        have hst4 : st4.initialized = false := by
          have h4 : (MCPClientState.sendNotification
              { st2 with server_info := some (MCPServerInfo.from_dict result) }
              (env (k + 1)) now).1.initialized = false := by
            rw [sendNotification_initialized]
            exact hst2
          rw [hsn] at h4
          exact h4
        cases e with
        | some err =>
          have h5 : st4.initialized = st'.initialized := by
            have h6 := congrArg (fun p => p.1.initialized) heq
            simpa using h6
          rw [← h5]
          exact hst4
        | none =>
          have h6 := congrArg (fun p => p.2.2.1) heq
          simp at h6
    | false =>
      rw [hst] at heq
      simp only [reduceIte, Bool.false_eq_true, if_false, if_true] at heq
      cases hin : st.initialized with
      | true =>
        rw [hin] at heq
        simp only [reduceIte, Bool.false_eq_true, if_false, if_true] at heq
        have h6 := congrArg (fun p => p.2.2.1) heq
        simp at h6
      | false =>
        rw [hin] at heq
        simp only [reduceIte, Bool.false_eq_true, if_false, if_true] at heq
        rcases hsr : MCPClientState.sendRequest st (env k) now with ⟨st2, res⟩
        rw [hsr] at heq
        have hst2 : st2.initialized = false := by
          have h2 : (MCPClientState.sendRequest st (env k) now).1.initialized
              = st.initialized := sendRequest_initialized st (env k) now
          rw [hsr] at h2
          rw [h2, hin]
        cases res with
        | error e =>
          have h5 : st2.initialized = st'.initialized := by
            have h6 := congrArg (fun p => p.1.initialized) heq
            simpa using h6
          rw [← h5]
          exact hst2
        | ok result =>
          dsimp only at heq
          rcases hsn : MCPClientState.sendNotification
              { st2 with server_info := some (MCPServerInfo.from_dict result) }
              (env (k + 1)) now with ⟨st4, e⟩
          rw [hsn] at heq
          have hst4 : st4.initialized = false := by
            have h4 : (MCPClientState.sendNotification
                { st2 with server_info := some (MCPServerInfo.from_dict result) }
                (env (k + 1)) now).1.initialized = false := by
              rw [sendNotification_initialized]
              exact hst2
            rw [hsn] at h4
            exact h4
          cases e with
          | some err =>
            have h5 : st4.initialized = st'.initialized := by
              have h6 := congrArg (fun p => p.1.initialized) heq
              simpa using h6
            rw [← h5]
            exact hst4
          | none =>
            have h6 := congrArg (fun p => p.2.2.1) heq
            simp at h6


def readyClient : MCPClientState :=
  { transport :=
      { session_id := some ('s' :: [])
        session_last_used := 10
        session_timeout := 300
        closed := false
        pending := [] }
    initialized := true
    server_info := none
    request_id := 3 }

/-- Witness for C6: a concrete Ready client with a fresh session —
`connect()` changes nothing and reports success without consuming any
network reply. -/
theorem connect_noop_or_atomic_witness :
    MCPClientState.connect readyClient (fun _ => HttpReply.netFail) 0 10
      = (readyClient, 0, true, []) :=
  connect_noop_or_atomic.1 readyClient (fun _ => HttpReply.netFail) 0 10 rfl
    (by decide)


/-- A connected client whose peer advertised no capabilities at all. -/
def noCapClient : MCPClientState :=
  { transport :=
      { session_id := some ('s' :: [])
        session_last_used := 10
        session_timeout := 300
        closed := false
        pending := [] }
    initialized := true
    server_info := some { name := [], version := [], capabilities := {} }
    request_id := 0 }

/-- A network that always answers HTTP 200 with an empty JSON-RPC result. -/
def okEnv : Nat → HttpReply := fun _ =>
  HttpReply.reply 200 none (Json.obj [("result".data, Json.obj [])])

/-- C7 counterexample: on a connected client whose peer advertised neither
the resources nor the prompts capability, `read_resource` still sends
`resources/read` and `get_prompt` still sends `prompts/get` to the server;
only the two list operations check the capability. -/
theorem read_resource_skips_capability_check :
    MCPClientState.is_connected noCapClient = true
    ∧ (noCapClient.server_info.map fun si => si.capabilities.resources) = some false
    ∧ (noCapClient.server_info.map fun si => si.capabilities.prompts) = some false
    ∧ (MCPClientState.read_resource noCapClient okEnv 0 10).2.2.2
        = ["resources/read".data]
    ∧ (MCPClientState.get_prompt noCapClient okEnv 0 10).2.2.2
        = ["prompts/get".data] :=
  ⟨rfl, rfl, rfl, rfl, rfl⟩

/-- C7 (amended): after a successful `_ensure_connected`, the two list
operations are capability-gated — a missing `resources` (resp. `prompts`)
capability makes `list_resources` (resp. `list_prompts`) return an empty
list without sending anything further — while `read_resource` and
`get_prompt` send their request unconditionally, capability or not. -/
theorem mcp_capability_gate (st st1 : MCPClientState) (env : Nat → HttpReply)
    (k k1 now : Nat) (tr0 : List (List Char))
    (hc : st.ensureConnected env k now = (st1, k1, true, tr0)) :
    ((match st1.server_info with
      | some si => si.capabilities.resources
      | none => false) = false →
        st.list_resources env k now = (st1, k1, Except.ok (Json.arr []), tr0))
    ∧ ((match st1.server_info with
      | some si => si.capabilities.prompts
      | none => false) = false →
        st.list_prompts env k now = (st1, k1, Except.ok (Json.arr []), tr0))
    ∧ (st.read_resource env k now).2.2.2 = tr0 ++ ["resources/read".data]
    ∧ (st.get_prompt env k now).2.2.2 = tr0 ++ ["prompts/get".data] := by
  refine ⟨?_, ?_, ?_, ?_⟩
  · intro hres
    unfold MCPClientState.list_resources
    rw [hc]
    dsimp only
    rw [hres]
    simp
  · intro hpro
    unfold MCPClientState.list_prompts
    rw [hc]
    dsimp only
    rw [hpro]
    simp
  · unfold MCPClientState.read_resource
    rw [hc]
    dsimp only
    rcases hsr : MCPClientState.sendRequest st1 (env k1) now with ⟨st2, res⟩
    cases res <;> simp
  · unfold MCPClientState.get_prompt
    rw [hc]
    dsimp only
    rcases hsr : MCPClientState.sendRequest st1 (env k1) now with ⟨st2, res⟩
    cases res <;> simp

/-- Witness for C7's amended statement: the capability-free client gets an
empty `list_resources` with no request sent, while its `read_resource`
sends `resources/read` anyway. -/
theorem mcp_capability_gate_witness :
    MCPClientState.list_resources noCapClient okEnv 0 10
      = (noCapClient, 0, Except.ok (Json.arr []), [])
    ∧ (MCPClientState.read_resource noCapClient okEnv 0 10).2.2.2
      = [] ++ ["resources/read".data] := by
  have h := mcp_capability_gate noCapClient noCapClient okEnv 0 0 10 [] rfl
  exact ⟨h.1 rfl, h.2.2.1⟩


theorem connect_count_tools (st : MCPClientState) (env : Nat → HttpReply)
    (k now : Nat) :
    ((st.connect env k now).2.2.2).count "tools/call".data = 0 := by
  unfold MCPClientState.connect
  dsimp only
  repeat' split
  all_goals dsimp only
  all_goals decide

theorem ensureConnected_count_tools (st : MCPClientState) (env : Nat → HttpReply)
    (k now : Nat) :
    ((st.ensureConnected env k now).2.2.2).count "tools/call".data = 0 := by
  unfold MCPClientState.ensureConnected
  split
  · rfl
  · exact connect_count_tools st env k now

theorem callToolCore_count_tools (st : MCPClientState) (env : Nat → HttpReply)
    (k now : Nat) :
    ((st.callToolCore env k now).2.2.2).count "tools/call".data ≤ 1 := by
  rcases hec : st.ensureConnected env k now with ⟨st1, k1, ok, tr0⟩
  have h0 : tr0.count "tools/call".data = 0 := by
    have h := ensureConnected_count_tools st env k now
    rw [hec] at h
    exact h
  unfold MCPClientState.callToolCore
  rw [hec]
  dsimp only
  split
  · simp [h0]
  · rcases hsr : MCPClientState.sendRequest st1 (env k1) now with ⟨st2, res⟩
    cases res <;> simp [List.count_append, h0]

/-- The network for the C2 scenario: a 401 on the first tools/call, a
successful reconnect (initialize and the initialized notification), then
a 403 on the retried tools/call. -/
def sessEnv : Nat → HttpReply
  | 0 => HttpReply.reply 401 none (Json.obj [])
  | 1 => HttpReply.reply 200 (some ('t' :: []))
      (Json.obj [("result".data, Json.obj [])])
  | 2 => HttpReply.reply 200 none (Json.obj [])
  | 3 => HttpReply.reply 403 none (Json.obj [])
  | _ => HttpReply.netFail

/-- C2: call_tool never makes a third tools/call attempt — at most two in
every run, at most one when retry is disabled — and in the concrete
401-then-403 run the client reconnects exactly once (one initialize, one
initialized notification between the two tools/call attempts), the second
session-class error is returned to the caller unchanged (code 403,
"Session error"), and the session token ends cleared. -/
theorem call_tool_session_retry :
    (∀ (retry : Bool) (st : MCPClientState) (env : Nat → HttpReply) (k now : Nat),
      ((MCPClientState.call_tool retry st env k now).2.2.2).count
        "tools/call".data ≤ 2)
    ∧ (∀ (st : MCPClientState) (env : Nat → HttpReply) (k now : Nat),
      ((MCPClientState.call_tool false st env k now).2.2.2).count
        "tools/call".data ≤ 1)
    ∧ (MCPClientState.call_tool true readyClient sessEnv 0 10).2.2.1
        = Except.error ⟨403, "Session error".data, none⟩
    ∧ (MCPClientState.call_tool true readyClient sessEnv 0 10).2.2.2
        = ["tools/call".data, "initialize".data,
           "notifications/initialized".data, "tools/call".data]
    ∧ (MCPClientState.call_tool true readyClient sessEnv 0 10).1.transport.session_id
        = none
    ∧ (MCPClientState.call_tool true readyClient sessEnv 0 10).2.1 = 4 := by
  refine ⟨?_, ?_, rfl, rfl, rfl, rfl⟩
  · intro retry st env k now
    rcases hct : st.callToolCore env k now with ⟨st1, k1, res, tr⟩
    have h1 : tr.count "tools/call".data ≤ 1 := by
      have h := callToolCore_count_tools st env k now
      rw [hct] at h
      exact h
    unfold MCPClientState.call_tool
    rw [hct]
    dsimp only
    split
    · exact le_trans h1 (by omega)
    · rename_i e
      by_cases hcond : retry = true ∧ (e.code = 400 ∨ e.code = 401 ∨ e.code = 403)
      · rw [if_pos hcond]
        rcases hcn : MCPClientState.connect { st1 with initialized := false, transport := st1.transport.refresh_session } env k1 now with ⟨st3, k2, cok, tr1⟩
        have h2 : tr1.count "tools/call".data = 0 := by
          have h := connect_count_tools { st1 with initialized := false, transport := st1.transport.refresh_session } env k1 now
          rw [hcn] at h
          exact h
        cases cok with
        | true =>
          rcases hc2 : MCPClientState.callToolCore st3 env k2 now with ⟨st4, k3, res2, tr2⟩
          have h3 : tr2.count "tools/call".data ≤ 1 := by
            have h := callToolCore_count_tools st3 env k2 now
            rw [hc2] at h
            exact h
          have hlit : ("tools/call".data : List Char)
              = ['t', 'o', 'o', 'l', 's', '/', 'c', 'a', 'l', 'l'] := rfl
          rw [hlit] at h1 h2 h3
          simp only [reduceIte]
          simp only [List.count_append]
          omega
        | false =>
          have hlit : ("tools/call".data : List Char)
              = ['t', 'o', 'o', 'l', 's', '/', 'c', 'a', 'l', 'l'] := rfl
          rw [hlit] at h1 h2
          simp only [Bool.false_eq_true, if_false]
          simp only [List.count_append]
          omega
      · rw [if_neg hcond]
        exact le_trans h1 (by omega)
  · intro st env k now
    rcases hct : st.callToolCore env k now with ⟨st1, k1, res, tr⟩
    have h1 : tr.count "tools/call".data ≤ 1 := by
      have h := callToolCore_count_tools st env k now
      rw [hct] at h
      exact h
    unfold MCPClientState.call_tool
    rw [hct]
    dsimp only
    split
    · exact h1
    · rename_i e
      rw [if_neg (fun hc => Bool.noConfusion hc.1)]
      exact h1

end GAssist
